import Mathlib

/-!
Verification of the report generator in `new_parse_assets.py`.

The development shallowly embeds the program:

* the record model (`OS`, `Software`, `Vulnerability`, `Device`) with the
  `from_dict` constructors, where a Python mapping restricted to the declared
  keys is modelled as a structure of `Option` fields (a key is present iff the
  field is `some`), and a Python `KeyError k` is modelled as `Except.error k`;
* the worksheet writer `save_to_excel`: a sheet is the list of cell writes
  (row, column, value) performed by the code, together with the merge ranges,
  the border assignments and the used range; the value of a cell is the last
  write at its coordinates (cells never written hold `None`);
* the column-width and row-height sizing passes, as functions of the list of
  cell values of a column resp. row, over exact rationals (Python's float
  literal `1.2` is modelled as the rational 6/5);
* the `main` driver, where the outcome of `open` + `json.load` is abstracted
  into the three cases the code distinguishes (file missing, invalid JSON,
  parsed data).

Python's `len(s.split("\n"))` and `"\n" in s` are modelled on the character
list of the string (`List.splitOn` / membership), which agrees with Python's
semantics for a one-character separator.
-/

/-- A value held by a worksheet cell in this program: unset (Python `None`),
a string, an integer (the `severity` field), or a boolean. -/
inductive CellValue where
  | none
  | str (s : String)
  | int (n : Int)
  | bool (b : Bool)
deriving DecidableEq, Repr

/-- Python `str(v)` for the values above. -/
def strOf : CellValue → String
  | CellValue.none => "None"
  | CellValue.str s => s
  | CellValue.int n => toString n
  | CellValue.bool b => if b then "True" else "False"

/-- Python truthiness of a cell value (`if cell.value:` in the sizing loops):
`None`, `""`, `0` and `False` are falsy. -/
def truthy : CellValue → Bool
  | CellValue.none => false
  | CellValue.str s => s != ""
  | CellValue.int n => n != 0
  | CellValue.bool b => b

/-- Number of characters of `str(v)` (Python `len(str(cell.value))`). -/
def strLen (v : CellValue) : Nat := (strOf v).length

/-- Python `"\n" in s` (membership of the newline character). -/
def hasNewline (s : String) : Bool := s.toList.contains (Char.ofNat 10)

/-- Python `len(s.split("\n"))`: number of newline-separated parts. -/
def lineCount (s : String) : Nat := (s.toList.splitOn (Char.ofNat 10)).length

/-- Record `OS` (lines 7-17 of the source). -/
structure OS where
  name : String
  version : String
deriving DecidableEq, Repr

/-- Record `Software` (lines 19-31). -/
structure Software where
  name : String
  version : String
  vendor : String
deriving DecidableEq, Repr

/-- Record `Vulnerability` (lines 33-69). -/
structure Vulnerability where
  kaspersky_id : String
  product_name : String
  description_url : String
  recommended_major_patch : String
  recommended_minor_patch : String
  severity_str : String
  severity : Int
  cve : List String
  exploit_exists : Bool
  malware_exists : Bool
deriving DecidableEq, Repr

/-- Record `Device` (lines 71-101). -/
structure Device where
  name : String
  fqdn : List String
  ip_addresses : List String
  mac_addresses : List String
  owner : String
  os : OS
  software : List Software
  vulnerabilities : List Vulnerability
deriving DecidableEq, Repr

/-- A JSON mapping for `OS.from_dict`, restricted to the declared keys:
a key is present iff the field is `some`. -/
structure OSDict where
  name : Option String
  version : Option String
deriving DecidableEq, Repr

/-- A JSON mapping for `Software.from_dict`. -/
structure SoftwareDict where
  name : Option String
  version : Option String
  vendor : Option String
deriving DecidableEq, Repr

/-- A JSON mapping for `Vulnerability.from_dict`. -/
structure VulnDict where
  kasperskyID : Option String
  productName : Option String
  descriptionURL : Option String
  recommendedMajorPatch : Option String
  recommendedMinorPatch : Option String
  severityStr : Option String
  severity : Option Int
  cve : Option (List String)
  exploitExists : Option Bool
  malwareExists : Option Bool
deriving DecidableEq, Repr

/-- A JSON mapping for `Device.from_dict`. -/
structure DeviceDict where
  name : Option String
  fqdn : Option (List String)
  ipAddresses : Option (List String)
  macAddresses : Option (List String)
  owner : Option String
  os : Option OSDict
  software : Option (List SoftwareDict)
  vulnerabilities : Option (List VulnDict)
deriving DecidableEq, Repr

/-- Python `data[key]`: the value when the key is present, otherwise a
`KeyError` carrying exactly the key (and nothing else). -/
def getKey {α : Type} (v : Option α) (key : String) : Except String α :=
  match v with
  | Option.some x => Except.ok x
  | Option.none => Except.error key

/-- `OS.from_dict` (lines 12-17); keys are demanded in the evaluation order of
the Python call. -/
def OS.from_dict (data : OSDict) : Except String OS := do
  let n ← getKey data.name "name"
  let v ← getKey data.version "version"
  pure ⟨n, v⟩

/-- `Software.from_dict` (lines 25-31). -/
def Software.from_dict (data : SoftwareDict) : Except String Software := do
  let n ← getKey data.name "name"
  let v ← getKey data.version "version"
  let ve ← getKey data.vendor "vendor"
  pure ⟨n, v, ve⟩

/-- `Vulnerability.from_dict` (lines 56-69). -/
def Vulnerability.from_dict (data : VulnDict) : Except String Vulnerability := do
  let k ← getKey data.kasperskyID "kasperskyID"
  let p ← getKey data.productName "productName"
  let du ← getKey data.descriptionURL "descriptionURL"
  let rmaj ← getKey data.recommendedMajorPatch "recommendedMajorPatch"
  let rmin ← getKey data.recommendedMinorPatch "recommendedMinorPatch"
  let sstr ← getKey data.severityStr "severityStr"
  let sev ← getKey data.severity "severity"
  let cv ← getKey data.cve "cve"
  let ex ← getKey data.exploitExists "exploitExists"
  let mw ← getKey data.malwareExists "malwareExists"
  pure ⟨k, p, du, rmaj, rmin, sstr, sev, cv, ex, mw⟩

/-- `Device.from_dict` (lines 90-101): scalar keys, then the nested `os`,
then the `software` and `vulnerabilities` lists, in Python's evaluation
order; the first failing lookup aborts the construction. -/
def Device.from_dict (data : DeviceDict) : Except String Device := do
  let n ← getKey data.name "name"
  let f ← getKey data.fqdn "fqdn"
  let ip ← getKey data.ipAddresses "ipAddresses"
  let mac ← getKey data.macAddresses "macAddresses"
  let ow ← getKey data.owner "owner"
  let osd ← getKey data.os "os"
  let osr ← OS.from_dict osd
  let swd ← getKey data.software "software"
  let sw ← swd.mapM Software.from_dict
  let vd ← getKey data.vulnerabilities "vulnerabilities"
  let vu ← vd.mapM Vulnerability.from_dict
  pure ⟨n, f, ip, mac, ow, osr, sw, vu⟩

/-- The error component of an `Except`, if any (the `KeyError` payload). -/
def errKey {α : Type} : Except String α → Option String
  | Except.error k => Option.some k
  | Except.ok _ => Option.none

/-- A cell write: (row, column, value). -/
abbrev Write := Nat × Nat × CellValue

/-- Applying one write to a grid of cell values. -/
def writeCell (g : Nat → Nat → CellValue) (w : Write) : Nat → Nat → CellValue :=
  fun r c => if r = w.1 ∧ c = w.2.1 then w.2.2 else g r c

/-- Applying a list of writes in order; a later write overrides an earlier
one at the same coordinates (openpyxl assignment semantics). -/
def applyWrites (l : List Write) (g : Nat → Nat → CellValue) : Nat → Nat → CellValue :=
  l.foldl writeCell g

/-- A worksheet as produced by `save_to_excel`: the cell writes, the merged
ranges (start row, start column, end row, end column), the cells that were
given the thin border, and the used range. -/
structure Sheet where
  cells : List Write
  merges : List (Nat × Nat × Nat × Nat)
  borders : List (Nat × Nat)
  nrows : Nat
  ncols : Nat

/-- The value of a cell of the sheet: the last write at (r, c), or `None`. -/
def Sheet.cell (ws : Sheet) (r c : Nat) : CellValue :=
  applyWrites ws.cells (fun _ _ => CellValue.none) r c

/-- Writes of one row: values `vs` into columns `c, c+1, ...` of row `r`. -/
def rowWritesFrom (r c : Nat) : List CellValue → List Write
  | [] => []
  | v :: vs => (r, c, v) :: rowWritesFrom r (c + 1) vs

/-- Border assignments `for col in range(1, n+1)` on row `r`. -/
def rowBorders (r n : Nat) : List (Nat × Nat) :=
  (List.range n).map (fun k => (r, k + 1))

/-- The header row writes (row 1, columns 1..len). -/
def headerWrites (headers : List String) : List Write :=
  rowWritesFrom 1 1 (headers.map CellValue.str)

/-- `devices_headers` (lines 125-127). -/
def devices_headers : List String :=
  ["Name", "FQDN", "IP Addresses", "MAC Addresses", "Owner", "OS Name", "OS Version"]

/-- The seven cell values of a Device sheet data row (lines 135-141). -/
def deviceRowVals (d : Device) : List CellValue :=
  [CellValue.str d.name,
   CellValue.str (String.intercalate ", " d.fqdn),
   CellValue.str (String.intercalate ", " d.ip_addresses),
   CellValue.str (String.intercalate ", " d.mac_addresses),
   CellValue.str d.owner,
   CellValue.str d.os.name,
   CellValue.str d.os.version]

/-- Device sheet data rows (lines 134-145): device `i` is written to row
`rowNum + i`. -/
def deviceBodyWrites : List Device → Nat → List Write
  | [], _ => []
  | d :: ds, rowNum => rowWritesFrom rowNum 1 (deviceRowVals d) ++ deviceBodyWrites ds (rowNum + 1)

/-- Device sheet data-row borders (lines 143-145). -/
def deviceBodyBorders : List Device → Nat → List (Nat × Nat)
  | [], _ => []
  | _ :: ds, rowNum => rowBorders rowNum 7 ++ deviceBodyBorders ds (rowNum + 1)

/-- The Device sheet built by lines 124-145 of `save_to_excel`. -/
def deviceSheet (devices : List Device) : Sheet :=
  ⟨headerWrites devices_headers ++ deviceBodyWrites devices 2,
   [],
   rowBorders 1 7 ++ deviceBodyBorders devices 2,
   1 + devices.length,
   7⟩

/-- Rows consumed by one device block in a grouped sheet: one row when the
item list is empty (`if not device.software: ... row_num += 1`), otherwise
one row per item. -/
def blockSize {α : Type} (items : List α) : Nat :=
  if items.isEmpty then 1 else items.length

/-- The inner `for software in device.software` loop (lines 167-177): each
item occupies one row; column 1 gets the device name exactly when the row is
the first row of the block (`row_num == start_row`), the empty string
otherwise; columns 2.. get the item's fields. -/
def itemLoopWrites {α : Type} (name : String) (startRow : Nat) (rowVals : α → List CellValue) :
    List α → Nat → List Write
  | [], _ => []
  | it :: rest, rowNum =>
      rowWritesFrom rowNum 1
          (CellValue.str (if rowNum = startRow then name else "") :: rowVals it) ++
        itemLoopWrites name startRow rowVals rest (rowNum + 1)

/-- Borders written by the inner item loop (lines 174-175). -/
def itemLoopBorders {α : Type} (ncols : Nat) : List α → Nat → List (Nat × Nat)
  | [], _ => []
  | _ :: rest, rowNum => rowBorders rowNum ncols ++ itemLoopBorders ncols rest (rowNum + 1)

/-- The `for device in devices` grouping loop shared verbatim by the Software
sheet (lines 157-181) and the Vulnerability sheet (lines 195-226); the two
copies differ only in the headers, the per-item cell values and the column
count.  An empty item list writes the device name alone; the loop advances
`row_num` by exactly `blockSize` rows per device. -/
def groupedBodyWrites {α : Type} (itemsOf : Device → List α) (rowVals : α → List CellValue) :
    List Device → Nat → List Write
  | [], _ => []
  | d :: ds, rowNum =>
      (if (itemsOf d).isEmpty then [(rowNum, 1, CellValue.str d.name)]
       else itemLoopWrites d.name rowNum rowVals (itemsOf d) rowNum) ++
        groupedBodyWrites itemsOf rowVals ds (rowNum + blockSize (itemsOf d))

/-- Borders of the grouping loop (empty case lines 162-163, item case
lines 174-175 resp. 219-220). -/
def groupedBodyBorders {α : Type} (itemsOf : Device → List α) (ncols : Nat) :
    List Device → Nat → List (Nat × Nat)
  | [], _ => []
  | d :: ds, rowNum =>
      (if (itemsOf d).isEmpty then rowBorders rowNum ncols
       else itemLoopBorders ncols (itemsOf d) rowNum) ++
        groupedBodyBorders itemsOf ncols ds (rowNum + blockSize (itemsOf d))

/-- Merge instructions of the grouping loop (lines 180-181 resp. 225-226):
after a block of `N` item rows starting at `start_row`, column 1 of the block
is merged iff `row_num > start_row + 1`, i.e. iff `N > 1`; the merged range
is rows `start_row .. start_row + N - 1` of column 1. -/
def groupedBodyMerges {α : Type} (itemsOf : Device → List α) :
    List Device → Nat → List (Nat × Nat × Nat × Nat)
  | [], _ => []
  | d :: ds, rowNum =>
      (if 1 < (itemsOf d).length then
        [(rowNum, 1, rowNum + (itemsOf d).length - 1, 1)]
       else []) ++
        groupedBodyMerges itemsOf ds (rowNum + blockSize (itemsOf d))

/-- A grouped sheet (headers in row 1, device blocks from row 2 on). -/
def groupedSheet {α : Type} (headers : List String) (itemsOf : Device → List α)
    (rowVals : α → List CellValue) (devices : List Device) : Sheet :=
  ⟨headerWrites headers ++ groupedBodyWrites itemsOf rowVals devices 2,
   groupedBodyMerges itemsOf devices 2,
   rowBorders 1 headers.length ++ groupedBodyBorders itemsOf headers.length devices 2,
   1 + (devices.map (fun d => blockSize (itemsOf d))).sum,
   headers.length⟩

/-- `software_headers` (lines 148-150).  The first, third and fourth labels
in the source file are runs of literal U+FFFD replacement characters — two,
six and six of them respectively (the file's non-ASCII labels were
corrupted); they are reproduced here byte for byte. -/
def software_headers : List String :=
  ["\uFFFD\uFFFD", "Software Name", "\uFFFD\uFFFD\uFFFD\uFFFD\uFFFD\uFFFD",
   "\uFFFD\uFFFD\uFFFD\uFFFD\uFFFD\uFFFD"]

/-- `vuln_headers` (lines 184-188); the first label is two U+FFFD characters
in the source file. -/
def vuln_headers : List String :=
  ["\uFFFD\uFFFD", "Kaspersky ID", "Product Name", "Severity",
   "Severity Level", "CVE IDs", "Exploit Exists", "Malware Exists",
   "Recommended Major Patch", "Recommended Minor Patch", "Description URL"]

/-- Cell values of a Software sheet item row, columns 2-4 (lines 169-171). -/
def softwareRowVals (s : Software) : List CellValue :=
  [CellValue.str s.name, CellValue.str s.version, CellValue.str s.vendor]

/-- Cell values of a Vulnerability sheet item row, columns 2-11
(lines 207-216): severity is written as the raw integer, the CVE list is
joined with ", ", the two booleans are rendered "Yes"/"No". -/
def vulnRowVals (v : Vulnerability) : List CellValue :=
  [CellValue.str v.kaspersky_id,
   CellValue.str v.product_name,
   CellValue.int v.severity,
   CellValue.str v.severity_str,
   CellValue.str (String.intercalate ", " v.cve),
   CellValue.str (if v.exploit_exists then "Yes" else "No"),
   CellValue.str (if v.malware_exists then "Yes" else "No"),
   CellValue.str v.recommended_major_patch,
   CellValue.str v.recommended_minor_patch,
   CellValue.str v.description_url]

/-- The Software sheet (lines 147-181). -/
def softwareSheet (devices : List Device) : Sheet :=
  groupedSheet software_headers (fun d => d.software) softwareRowVals devices

/-- The Vulnerability sheet (lines 183-226). -/
def vulnSheet (devices : List Device) : Sheet :=
  groupedSheet vuln_headers (fun d => d.vulnerabilities) vulnRowVals devices

/-- Sum of block sizes of the first `i` devices. -/
def partialSizes {α : Type} (itemsOf : Device → List α) (ds : List Device) (i : Nat) : Nat :=
  ((ds.take i).map (fun d => blockSize (itemsOf d))).sum

/-- First row of device `i`'s block in the Software sheet. -/
def swStart (devices : List Device) (i : Nat) : Nat :=
  2 + partialSizes (fun d => d.software) devices i

/-- First row of device `i`'s block in the Vulnerability sheet. -/
def vuStart (devices : List Device) (i : Nat) : Nat :=
  2 + partialSizes (fun d => d.vulnerabilities) devices i

/-- The guarded running-maximum loop shared by the two sizing passes:
`m = init; for v in cells: if p(v) and f(v) > m: m = f(v)`. -/
def guardedMaxFold (p : CellValue → Bool) (f : CellValue → Nat) (init : Nat)
    (cells : List CellValue) : Nat :=
  cells.foldl (fun m v => if p v = true ∧ m < f v then f v else m) init

/-- `max_length` of the column-width pass (lines 236-243): the maximum of
`len(str(cell.value))` over the truthy cell values, starting from 0. -/
def maxLengthFold (cells : List CellValue) : Nat :=
  guardedMaxFold truthy strLen 0 cells

/-- `adjusted_width` (line 246): `min((max_length + 2) * 1.2, 100)`, over
exact rationals. -/
def adjustedWidth (cells : List CellValue) : ℚ :=
  min ((maxLengthFold cells + 2) * (1.2 : ℚ)) 100

/-- The cell values of column `c` over the used range (rows 1..nrows). -/
def Sheet.columnCells (ws : Sheet) (c : Nat) : List CellValue :=
  (List.range' 1 ws.nrows).map (fun r => ws.cell r c)

/-- The width assigned to column `c` by lines 235-247. -/
def Sheet.colWidth (ws : Sheet) (c : Nat) : ℚ :=
  adjustedWidth (ws.columnCells c)

/-- The spec's wording for `maxLength`: the maximum character length over the
column's non-empty cell values (a cell is non-empty when it holds a value
whose string form is not the empty string). -/
def specMaxLength (cells : List CellValue) : Nat :=
  ((cells.filter (fun v => v != CellValue.none && strOf v != "")).map strLen).foldl max 0

/-- `max_lines` of the row-height pass (lines 250-256): the maximum of
`len(str(v).split("\n"))` over the truthy cell values containing a newline,
starting from 1. -/
def maxLinesFold (cells : List CellValue) : Nat :=
  guardedMaxFold (fun v => truthy v && hasNewline (strOf v))
    (fun v => lineCount (strOf v)) 1 cells

/-- The cell values of row `r` over the used range (columns 1..ncols). -/
def Sheet.rowCells (ws : Sheet) (r : Nat) : List CellValue :=
  (List.range' 1 ws.ncols).map (fun c => ws.cell r c)

/-- The height assigned to row `r` by lines 249-258: `15 * max_lines` when
some cell forced `max_lines > 1`, otherwise the default (unset). -/
def Sheet.rowHeight (ws : Sheet) (r : Nat) : Option ℚ :=
  if 1 < maxLinesFold (ws.rowCells r) then
    Option.some (15 * (maxLinesFold (ws.rowCells r) : ℚ))
  else Option.none

/-- The spec's wording for the row-height `n`: the largest line count over
the row's cells whose value contains an embedded newline. -/
def specMaxLines (cells : List CellValue) : Nat :=
  ((cells.filter (fun v => v != CellValue.none && hasNewline (strOf v))).map
    (fun v => lineCount (strOf v))).foldl max 1

/-- Outcome of `open('response.json')` + `json.load` in `main`
(lines 265-273): the file is absent, the file is not valid JSON, or a parsed
list of device mappings. -/
inductive ReadResult where
  | missing
  | badJson
  | ok (data : List DeviceDict)
deriving DecidableEq, Repr

/-- Outcome of a run of `main` (lines 264-277): a caught error reported with
a user-facing message and no output written; an uncaught `KeyError` aborting
the run with the interpreter's default diagnostic; or a successful save of
the workbook built from the constructed devices. -/
inductive RunOutcome where
  | printedError (msg : String)
  | uncaught (key : String)
  | saved (devices : List Device)
deriving DecidableEq, Repr

/-- Whether the outcome wrote the output file. -/
def RunOutcome.wroteOutput : RunOutcome → Bool
  | RunOutcome.saved _ => true
  | _ => false

/-- `main` (lines 264-277): the two file-level errors are caught and turned
into messages; `Device.from_dict` runs outside the `try` block, so a missing
key propagates uncaught; otherwise the workbook is saved. -/
def mainRun : ReadResult → RunOutcome
  | ReadResult.missing => RunOutcome.printedError "Error: File 'response.json' not found."
  | ReadResult.badJson => RunOutcome.printedError "Error: Invalid JSON format in 'response.json'."
  | ReadResult.ok data =>
      match data.mapM Device.from_dict with
      | Except.error k => RunOutcome.uncaught k
      | Except.ok devs => RunOutcome.saved devs

/-- A concrete device fixture used by witness theorems: two software items,
one vulnerability. -/
def wDevice : Device :=
  ⟨"host1", ["h1.example.org"], ["10.0.0.1"], ["aa:bb"], "alice", ⟨"Linux", "5.10"⟩,
   [⟨"nginx", "1.24", "F5"⟩, ⟨"openssl", "3.0", "OpenSSL"⟩],
   [⟨"KLA1", "p", "u", "1", "0", "High", 4, ["CVE-2020-1"], true, false⟩]⟩

/-- A device fixture with empty software and vulnerability lists and a
newline embedded in its name. -/
def wDevice2 : Device :=
  ⟨"host2\nsecond", [], [], [], "bob", ⟨"W", "11"⟩, [], []⟩

/-- The device list used by witness theorems. -/
def wDevices : List Device := [wDevice, wDevice2]

/-- An OS mapping missing the key `name`. -/
def wBadOSDict : OSDict := ⟨Option.none, Option.some "5.10"⟩

/-- A device mapping missing the key `name` (all other keys present). -/
def wBadDevDict : DeviceDict :=
  ⟨Option.none, Option.some [], Option.some [], Option.some [], Option.some "alice",
   Option.some ⟨Option.some "Linux", Option.some "5.10"⟩, Option.some [], Option.some []⟩

/-- A complete device mapping. -/
def wGoodDevDict : DeviceDict :=
  ⟨Option.some "host1", Option.some [], Option.some ["10.0.0.1"], Option.some [],
   Option.some "alice", Option.some ⟨Option.some "Linux", Option.some "5.10"⟩,
   Option.some [], Option.some []⟩

/-! ### Grid lookup lemmas -/

theorem applyWrites_nil (g : Nat → Nat → CellValue) : applyWrites [] g = g := rfl

theorem applyWrites_cons (w : Write) (l : List Write) (g : Nat → Nat → CellValue) :
    applyWrites (w :: l) g = applyWrites l (writeCell g w) := rfl

theorem applyWrites_append (l₁ l₂ : List Write) (g : Nat → Nat → CellValue) :
    applyWrites (l₁ ++ l₂) g = applyWrites l₂ (applyWrites l₁ g) :=
  List.foldl_append _ _ _ _

theorem applyWrites_notin (l : List Write) (g : Nat → Nat → CellValue) (r c : Nat)
    (h : ∀ w ∈ l, ¬(r = w.1 ∧ c = w.2.1)) :
    applyWrites l g r c = g r c := by
  induction l generalizing g with
  | nil => rfl
  | cons w l ih =>
      rw [applyWrites_cons, ih _ (fun w' hw' => h w' (List.mem_cons_of_mem _ hw'))]
      simp only [writeCell, if_neg (h w (List.mem_cons_self _ _))]

theorem applyWrites_mem (l : List Write) (g : Nat → Nat → CellValue) (r c : Nat) :
    applyWrites l g r c = g r c ∨ ∃ w ∈ l, applyWrites l g r c = w.2.2 := by
  induction l generalizing g with
  | nil => exact Or.inl rfl
  | cons w l ih =>
      rw [applyWrites_cons]
      rcases ih (writeCell g w) with h | ⟨w', hw', hv⟩
      · rw [h]
        by_cases hc : r = w.1 ∧ c = w.2.1
        · exact Or.inr ⟨w, List.mem_cons_self _ _, by simp [writeCell, hc]⟩
        · exact Or.inl (by simp [writeCell, hc])
      · exact Or.inr ⟨w', List.mem_cons_of_mem _ hw', hv⟩

theorem rowWritesFrom_bounds (r : Nat) (vs : List CellValue) :
    ∀ (c : Nat), ∀ w ∈ rowWritesFrom r c vs,
      w.1 = r ∧ c ≤ w.2.1 ∧ w.2.1 < c + vs.length := by
  induction vs with
  | nil => intro c w hw; simp [rowWritesFrom] at hw
  | cons v vs ih =>
      intro c w hw
      rw [rowWritesFrom] at hw
      rcases List.mem_cons.mp hw with h | h
      · subst h; simp
      · obtain ⟨h1, h2, h3⟩ := ih (c + 1) w h
        exact ⟨h1, by omega, by simp only [List.length_cons]; omega⟩

theorem rowWritesFrom_vals (r : Nat) (vs : List CellValue) :
    ∀ (c : Nat), ∀ w ∈ rowWritesFrom r c vs, w.2.2 ∈ vs := by
  induction vs with
  | nil => intro c w hw; simp [rowWritesFrom] at hw
  | cons v vs ih =>
      intro c w hw
      rw [rowWritesFrom] at hw
      rcases List.mem_cons.mp hw with h | h
      · subst h; simp
      · exact List.mem_cons_of_mem _ (ih (c + 1) w h)

theorem applyWrites_rowWritesFrom (r : Nat) (vs : List CellValue) (c : Nat)
    (g : Nat → Nat → CellValue) (r' c' : Nat) :
    applyWrites (rowWritesFrom r c vs) g r' c' =
      if r' = r ∧ c ≤ c' ∧ c' < c + vs.length then vs.getD (c' - c) CellValue.none
      else g r' c' := by
  induction vs generalizing c g with
  | nil =>
      rw [rowWritesFrom, applyWrites_nil, if_neg]
      simp only [List.length_nil, not_and]
      intro _ _
      omega
  | cons v vs ih =>
      rw [rowWritesFrom, applyWrites_cons, ih]
      by_cases h1 : r' = r ∧ c + 1 ≤ c' ∧ c' < c + 1 + vs.length
      · rw [if_pos h1]
        have h2 : r' = r ∧ c ≤ c' ∧ c' < c + (v :: vs).length := by
          simp only [List.length_cons]
          exact ⟨h1.1, by omega, by omega⟩
        rw [if_pos h2]
        have hcc : c' - c = (c' - (c + 1)) + 1 := by omega
        rw [hcc, List.getD_cons_succ]
      · rw [if_neg h1]
        by_cases hr : r' = r
        · by_cases hc : c' = c
          · have h2 : r' = r ∧ c ≤ c' ∧ c' < c + (v :: vs).length := by
              simp only [List.length_cons]
              exact ⟨hr, by omega, by omega⟩
            rw [if_pos h2]
            have : c' - c = 0 := by omega
            rw [this, List.getD_cons_zero]
            simp [writeCell, hr, hc]
          · have h2 : ¬(r' = r ∧ c ≤ c' ∧ c' < c + (v :: vs).length) := by
              simp only [List.length_cons, not_and]
              intro _ hle hlt
              exact h1 ⟨hr, by omega, by omega⟩
            rw [if_neg h2]
            simp [writeCell, hc]
        · have h2 : ¬(r' = r ∧ c ≤ c' ∧ c' < c + (v :: vs).length) := fun hcon => hr hcon.1
          rw [if_neg h2]
          simp [writeCell, hr]

theorem headerWrites_row (headers : List String) :
    ∀ w ∈ headerWrites headers, w.1 = 1 :=
  fun w hw => (rowWritesFrom_bounds 1 (headers.map CellValue.str) 1 w hw).1

/-- Looking up a header cell in a full sheet whose body writes all sit in
rows ≥ 2. -/
theorem applyWrites_header_body (headers : List String) (body : List Write)
    (hbody : ∀ w ∈ body, 2 ≤ w.1) (c : Nat) (h1 : 1 ≤ c) (h2 : c ≤ headers.length) :
    applyWrites (headerWrites headers ++ body) (fun _ _ => CellValue.none) 1 c =
      CellValue.str (headers.getD (c - 1) "") := by
  rw [applyWrites_append, applyWrites_notin body _ 1 c
    (fun w hw => fun hcon => by have := hbody w hw; omega)]
  rw [headerWrites, applyWrites_rowWritesFrom, if_pos]
  · rw [List.getD_eq_getElem?_getD, List.getElem?_map]
    have hlt : c - 1 < headers.length := by omega
    rw [List.getElem?_eq_getElem hlt]
    simp [List.getD_eq_getElem?_getD, List.getElem?_eq_getElem hlt]
  · refine ⟨rfl, h1, ?_⟩
    simp only [List.length_map]
    omega

/-- `applyWrites` reads its base grid only at the queried coordinates. -/
theorem applyWrites_congr_base (l : List Write) (g₁ g₂ : Nat → Nat → CellValue)
    (r c : Nat) (h : g₁ r c = g₂ r c) :
    applyWrites l g₁ r c = applyWrites l g₂ r c := by
  induction l generalizing g₁ g₂ with
  | nil => exact h
  | cons w l ih =>
      rw [applyWrites_cons, applyWrites_cons]
      refine ih _ _ ?_
      simp only [writeCell]
      by_cases hc : r = w.1 ∧ c = w.2.1
      · rw [if_pos hc, if_pos hc]
      · rw [if_neg hc, if_neg hc, h]

/-- Looking up a body cell: the header writes (all in row 1) are invisible
from rows ≥ 2. -/
theorem applyWrites_header_invisible (headers : List String) (body : List Write)
    (r c : Nat) (hr : 2 ≤ r) (g : Nat → Nat → CellValue) :
    applyWrites (headerWrites headers ++ body) g r c = applyWrites body g r c := by
  rw [applyWrites_append]
  refine applyWrites_congr_base _ _ _ _ _ ?_
  refine applyWrites_notin _ _ _ _ (fun w hw hcon => ?_)
  have := headerWrites_row headers w hw
  omega

/-! ### Item-loop and block lemmas -/

theorem itemLoopWrites_bounds {α : Type} (name : String) (startRow : Nat)
    (rowVals : α → List CellValue) (items : List α) :
    ∀ (rowNum : Nat), ∀ w ∈ itemLoopWrites name startRow rowVals items rowNum,
      rowNum ≤ w.1 ∧ w.1 < rowNum + items.length := by
  induction items with
  | nil => intro rowNum w hw; simp [itemLoopWrites] at hw
  | cons it rest ih =>
      intro rowNum w hw
      rw [itemLoopWrites] at hw
      rcases List.mem_append.mp hw with h | h
      · have h1 := (rowWritesFrom_bounds rowNum _ 1 w h).1
        simp only [List.length_cons]
        omega
      · have h1 := ih (rowNum + 1) w h
        simp only [List.length_cons]
        omega

theorem itemLoopWrites_vals {α : Type} (name : String) (startRow : Nat)
    (rowVals : α → List CellValue) (items : List α) :
    ∀ (rowNum : Nat), ∀ w ∈ itemLoopWrites name startRow rowVals items rowNum,
      (∃ s, w.2.2 = CellValue.str s) ∨ ∃ it ∈ items, w.2.2 ∈ rowVals it := by
  induction items with
  | nil => intro rowNum w hw; simp [itemLoopWrites] at hw
  | cons it rest ih =>
      intro rowNum w hw
      rw [itemLoopWrites] at hw
      rcases List.mem_append.mp hw with h | h
      · have h1 := rowWritesFrom_vals rowNum _ 1 w h
        rcases List.mem_cons.mp h1 with h2 | h2
        · exact Or.inl ⟨_, h2⟩
        · exact Or.inr ⟨it, List.mem_cons_self _ _, h2⟩
      · rcases ih (rowNum + 1) w h with h2 | ⟨it', hit', h2⟩
        · exact Or.inl h2
        · exact Or.inr ⟨it', List.mem_cons_of_mem _ hit', h2⟩

theorem applyWrites_itemLoopWrites {α : Type} (name : String) (startRow : Nat)
    (rowVals : α → List CellValue) (items : List α) :
    ∀ (rowNum j : Nat) (it : α), items[j]? = some it →
      ∀ (g : Nat → Nat → CellValue) (c : Nat),
      applyWrites (itemLoopWrites name startRow rowVals items rowNum) g (rowNum + j) c =
        if 1 ≤ c ∧ c < 2 + (rowVals it).length then
          (CellValue.str (if rowNum + j = startRow then name else "") :: rowVals it).getD
            (c - 1) CellValue.none
        else g (rowNum + j) c := by
  induction items with
  | nil => intro rowNum j it hj; simp at hj
  | cons a rest ih =>
      intro rowNum j it hj g c
      rw [itemLoopWrites, applyWrites_append]
      cases j with
      | zero =>
          simp only [List.getElem?_cons_zero, Option.some.injEq] at hj
          subst hj
          rw [applyWrites_notin _ _ _ _ (fun w hw hcon => by
            have h1 := (itemLoopWrites_bounds name startRow rowVals rest (rowNum + 1) w hw).1
            omega)]
          rw [applyWrites_rowWritesFrom]
          simp only [Nat.add_zero]
          exact if_congr (by simp only [List.length_cons, true_and]; omega) rfl rfl
      | succ j' =>
          simp only [List.getElem?_cons_succ] at hj
          have hrow : rowNum + (j' + 1) = (rowNum + 1) + j' := by omega
          rw [hrow, ih (rowNum + 1) j' it hj]
          by_cases hc : 1 ≤ c ∧ c < 2 + (rowVals it).length
          · rw [if_pos hc, if_pos hc]
          · rw [if_neg hc, if_neg hc, applyWrites_rowWritesFrom,
              if_neg (fun hcon => by
                have h2 : (rowNum + 1) + j' = rowNum := hcon.1
                omega)]

theorem blockSize_pos {α : Type} (items : List α) : 1 ≤ blockSize items := by
  cases items with
  | nil => simp [blockSize]
  | cons a l =>
      rw [blockSize, if_neg (by simp)]
      simp only [List.length_cons]
      omega

theorem blockSize_of_ne_nil {α : Type} (items : List α) (h : items ≠ []) :
    blockSize items = items.length := by
  cases items with
  | nil => exact absurd rfl h
  | cons a l => simp [blockSize]

theorem partialSizes_zero {α : Type} (itemsOf : Device → List α) (ds : List Device) :
    partialSizes itemsOf ds 0 = 0 := rfl

theorem partialSizes_cons_succ {α : Type} (itemsOf : Device → List α) (d : Device)
    (ds : List Device) (i : Nat) :
    partialSizes itemsOf (d :: ds) (i + 1) =
      blockSize (itemsOf d) + partialSizes itemsOf ds i := by
  simp [partialSizes, List.take_succ_cons]

theorem groupedBodyWrites_row_lb {α : Type} (itemsOf : Device → List α)
    (rowVals : α → List CellValue) (ds : List Device) :
    ∀ (rowNum : Nat), ∀ w ∈ groupedBodyWrites itemsOf rowVals ds rowNum, rowNum ≤ w.1 := by
  induction ds with
  | nil => intro rowNum w hw; simp [groupedBodyWrites] at hw
  | cons d ds ih =>
      intro rowNum w hw
      rw [groupedBodyWrites] at hw
      rcases List.mem_append.mp hw with h | h
      · by_cases hd : (itemsOf d).isEmpty = true
        · rw [if_pos hd] at h
          simp only [List.mem_singleton] at h
          subst h
          exact Nat.le_refl _
        · rw [if_neg hd] at h
          exact (itemLoopWrites_bounds d.name rowNum rowVals (itemsOf d) rowNum w h).1
      · have h1 := ih (rowNum + blockSize (itemsOf d)) w h
        have h2 := blockSize_pos (itemsOf d)
        omega

theorem groupedBodyWrites_vals {α : Type} (itemsOf : Device → List α)
    (rowVals : α → List CellValue) (ds : List Device) :
    ∀ (rowNum : Nat), ∀ w ∈ groupedBodyWrites itemsOf rowVals ds rowNum,
      (∃ s, w.2.2 = CellValue.str s) ∨ ∃ d ∈ ds, ∃ it ∈ itemsOf d, w.2.2 ∈ rowVals it := by
  induction ds with
  | nil => intro rowNum w hw; simp [groupedBodyWrites] at hw
  | cons d ds ih =>
      intro rowNum w hw
      rw [groupedBodyWrites] at hw
      rcases List.mem_append.mp hw with h | h
      · by_cases hd : (itemsOf d).isEmpty = true
        · rw [if_pos hd] at h
          simp only [List.mem_singleton] at h
          subst h
          exact Or.inl ⟨_, rfl⟩
        · rw [if_neg hd] at h
          rcases itemLoopWrites_vals d.name rowNum rowVals (itemsOf d) rowNum w h with
            h2 | ⟨it, hit, h2⟩
          · exact Or.inl h2
          · exact Or.inr ⟨d, List.mem_cons_self _ _, it, hit, h2⟩
      · rcases ih (rowNum + blockSize (itemsOf d)) w h with h2 | ⟨d', hd', it, hit, h2⟩
        · exact Or.inl h2
        · exact Or.inr ⟨d', List.mem_cons_of_mem _ hd', it, hit, h2⟩

/-- The central cell characterization for a device block with a nonempty
item list: row `j` of block `i` holds the device name (j = 0) or "" in
column 1 and item `j`'s values in columns 2..; other columns fall through. -/
theorem groupedBody_cell_item {α : Type} (itemsOf : Device → List α)
    (rowVals : α → List CellValue) (ds : List Device) :
    ∀ (rowNum i j : Nat) (d : Device) (it : α), ds[i]? = some d → (itemsOf d)[j]? = some it →
      ∀ (g : Nat → Nat → CellValue) (c : Nat),
      applyWrites (groupedBodyWrites itemsOf rowVals ds rowNum) g
          (rowNum + partialSizes itemsOf ds i + j) c =
        if 1 ≤ c ∧ c < 2 + (rowVals it).length then
          (CellValue.str (if j = 0 then d.name else "") :: rowVals it).getD (c - 1)
            CellValue.none
        else g (rowNum + partialSizes itemsOf ds i + j) c := by
  induction ds with
  | nil => intro rowNum i j d it hd; simp at hd
  | cons d0 ds ih =>
      intro rowNum i j d it hd hit g c
      rw [groupedBodyWrites, applyWrites_append]
      cases i with
      | zero =>
          simp only [List.getElem?_cons_zero, Option.some.injEq] at hd
          subst hd
          have hlen : j < (itemsOf d0).length := by
            by_contra hcon
            rw [List.getElem?_eq_none (by omega)] at hit
            exact Option.noConfusion hit
          have hne : ¬(itemsOf d0).isEmpty = true := by
            intro hcon
            rw [List.isEmpty_iff] at hcon
            rw [hcon] at hlen
            simp at hlen
          have hbs : blockSize (itemsOf d0) = (itemsOf d0).length :=
            blockSize_of_ne_nil _ (fun hcon => hne (by rw [hcon]; rfl))
          rw [partialSizes_zero, Nat.add_zero]
          rw [applyWrites_notin _ _ _ _ (fun w hw hcon => by
            have h1 := groupedBodyWrites_row_lb itemsOf rowVals ds _ w hw
            have h2 := hcon.1
            omega)]
          rw [if_neg hne]
          rw [applyWrites_itemLoopWrites d0.name rowNum rowVals (itemsOf d0) rowNum j it hit]
          have hname : (rowNum + j = rowNum) = (j = 0) := by
            apply propext
            omega
          simp only [hname]
      | succ i' =>
          simp only [List.getElem?_cons_succ] at hd
          have hrow : rowNum + partialSizes itemsOf (d0 :: ds) (i' + 1) + j =
              (rowNum + blockSize (itemsOf d0)) + partialSizes itemsOf ds i' + j := by
            rw [partialSizes_cons_succ]
            omega
          rw [hrow, ih (rowNum + blockSize (itemsOf d0)) i' j d it hd hit]
          by_cases hc : 1 ≤ c ∧ c < 2 + (rowVals it).length
          · rw [if_pos hc, if_pos hc]
          · rw [if_neg hc, if_neg hc]
            refine applyWrites_notin _ _ _ _ (fun w hw hcon => ?_)
            have h2 := hcon.1
            by_cases hd0 : (itemsOf d0).isEmpty = true
            · rw [if_pos hd0] at hw
              simp only [List.mem_singleton] at hw
              subst hw
              have h3 := blockSize_pos (itemsOf d0)
              have h4 := partialSizes_zero itemsOf ds
              simp only [] at h2
              omega
            · rw [if_neg hd0] at hw
              have h3 := (itemLoopWrites_bounds d0.name rowNum rowVals (itemsOf d0) rowNum w hw).2
              have hbs : blockSize (itemsOf d0) = (itemsOf d0).length :=
                blockSize_of_ne_nil _ (fun hcon' => hd0 (by rw [hcon']; rfl))
              omega

/-- Cell characterization for a device block with an empty item list: the
single row holds the device name in column 1 and nothing else. -/
theorem groupedBody_cell_empty {α : Type} (itemsOf : Device → List α)
    (rowVals : α → List CellValue) (ds : List Device) :
    ∀ (rowNum i : Nat) (d : Device), ds[i]? = some d → itemsOf d = [] →
      ∀ (g : Nat → Nat → CellValue) (c : Nat),
      applyWrites (groupedBodyWrites itemsOf rowVals ds rowNum) g
          (rowNum + partialSizes itemsOf ds i) c =
        if c = 1 then CellValue.str d.name
        else g (rowNum + partialSizes itemsOf ds i) c := by
  induction ds with
  | nil => intro rowNum i d hd; simp at hd
  | cons d0 ds ih =>
      intro rowNum i d hd hempty g c
      rw [groupedBodyWrites, applyWrites_append]
      cases i with
      | zero =>
          simp only [List.getElem?_cons_zero, Option.some.injEq] at hd
          subst hd
          have he : (itemsOf d0).isEmpty = true := by rw [hempty]; rfl
          rw [partialSizes_zero, Nat.add_zero]
          rw [applyWrites_notin _ _ _ _ (fun w hw hcon => by
            have h1 := groupedBodyWrites_row_lb itemsOf rowVals ds _ w hw
            have h2 := hcon.1
            have h3 := blockSize_pos (itemsOf d0)
            omega)]
          rw [if_pos he, applyWrites_cons, applyWrites_nil]
          by_cases hc : c = 1
          · simp [writeCell, hc]
          · simp [writeCell, hc]
      | succ i' =>
          simp only [List.getElem?_cons_succ] at hd
          have hrow : rowNum + partialSizes itemsOf (d0 :: ds) (i' + 1) =
              (rowNum + blockSize (itemsOf d0)) + partialSizes itemsOf ds i' := by
            rw [partialSizes_cons_succ]
            omega
          rw [hrow, ih (rowNum + blockSize (itemsOf d0)) i' d hd hempty]
          by_cases hc : c = 1
          · rw [if_pos hc, if_pos hc]
          · rw [if_neg hc, if_neg hc]
            refine applyWrites_notin _ _ _ _ (fun w hw hcon => ?_)
            have h2 := hcon.1
            by_cases hd0 : (itemsOf d0).isEmpty = true
            · rw [if_pos hd0] at hw
              simp only [List.mem_singleton] at hw
              subst hw
              have h3 := blockSize_pos (itemsOf d0)
              simp only [] at h2
              omega
            · rw [if_neg hd0] at hw
              have h3 := (itemLoopWrites_bounds d0.name rowNum rowVals (itemsOf d0) rowNum w hw).2
              have hbs : blockSize (itemsOf d0) = (itemsOf d0).length :=
                blockSize_of_ne_nil _ (fun hcon' => hd0 (by rw [hcon']; rfl))
              omega

/-! ### Merge-range lemmas -/

theorem groupedBodyMerges_mem {α : Type} (itemsOf : Device → List α) (ds : List Device) :
    ∀ (rowNum : Nat), ∀ m ∈ groupedBodyMerges itemsOf ds rowNum,
      ∃ (i : Nat) (d : Device), ds[i]? = some d ∧ 1 < (itemsOf d).length ∧
        m = (rowNum + partialSizes itemsOf ds i, 1,
             rowNum + partialSizes itemsOf ds i + (itemsOf d).length - 1, 1) := by
  induction ds with
  | nil => intro rowNum m hm; simp [groupedBodyMerges] at hm
  | cons d0 ds ih =>
      intro rowNum m hm
      rw [groupedBodyMerges] at hm
      rcases List.mem_append.mp hm with h | h
      · by_cases h1 : 1 < (itemsOf d0).length
        · rw [if_pos h1] at h
          simp only [List.mem_singleton] at h
          refine ⟨0, d0, by simp, h1, ?_⟩
          rw [h, partialSizes_zero, Nat.add_zero]
        · rw [if_neg h1] at h
          simp at h
      · obtain ⟨i, d, hd, hlen, hm'⟩ := ih (rowNum + blockSize (itemsOf d0)) m h
        refine ⟨i + 1, d, by simpa using hd, hlen, ?_⟩
        rw [hm', partialSizes_cons_succ]
        simp only [Prod.mk.injEq]
        refine ⟨by omega, ?_, by omega, ?_⟩ <;> simp

theorem groupedBodyMerges_mem_of {α : Type} (itemsOf : Device → List α) (ds : List Device) :
    ∀ (rowNum i : Nat) (d : Device), ds[i]? = some d → 1 < (itemsOf d).length →
      (rowNum + partialSizes itemsOf ds i, 1,
       rowNum + partialSizes itemsOf ds i + (itemsOf d).length - 1, 1) ∈
        groupedBodyMerges itemsOf ds rowNum := by
  induction ds with
  | nil => intro rowNum i d hd; simp at hd
  | cons d0 ds ih =>
      intro rowNum i d hd hlen
      rw [groupedBodyMerges]
      cases i with
      | zero =>
          simp only [List.getElem?_cons_zero, Option.some.injEq] at hd
          subst hd
          refine List.mem_append_left _ ?_
          rw [if_pos hlen, partialSizes_zero, Nat.add_zero]
          exact List.mem_singleton.mpr rfl
      | succ i' =>
          simp only [List.getElem?_cons_succ] at hd
          refine List.mem_append_right _ ?_
          have h1 := ih (rowNum + blockSize (itemsOf d0)) i' d hd hlen
          rw [partialSizes_cons_succ,
            show rowNum + (blockSize (itemsOf d0) + partialSizes itemsOf ds i') =
              rowNum + blockSize (itemsOf d0) + partialSizes itemsOf ds i' from by omega]
          exact h1

theorem partialSizes_add_block {α : Type} (itemsOf : Device → List α) (ds : List Device) :
    ∀ (i : Nat) (d : Device), ds[i]? = some d →
      partialSizes itemsOf ds (i + 1) = partialSizes itemsOf ds i + blockSize (itemsOf d) := by
  induction ds with
  | nil => intro i d hd; simp at hd
  | cons d0 ds ih =>
      intro i d hd
      cases i with
      | zero =>
          simp only [List.getElem?_cons_zero, Option.some.injEq] at hd
          subst hd
          rw [partialSizes_cons_succ, partialSizes_zero, partialSizes_zero]
          omega
      | succ i' =>
          simp only [List.getElem?_cons_succ] at hd
          rw [partialSizes_cons_succ, partialSizes_cons_succ, ih i' d hd]
          omega

theorem partialSizes_le_succ {α : Type} (itemsOf : Device → List α) (ds : List Device)
    (i : Nat) : partialSizes itemsOf ds i ≤ partialSizes itemsOf ds (i + 1) := by
  cases hd : ds[i]? with
  | some d =>
      rw [partialSizes_add_block itemsOf ds i d hd]
      omega
  | none =>
      have hlen : ds.length ≤ i := by
        by_contra hcon
        rw [List.getElem?_eq_getElem (by omega)] at hd
        exact Option.noConfusion hd
      unfold partialSizes
      rw [List.take_of_length_le (by omega), List.take_of_length_le (by omega)]

theorem partialSizes_mono {α : Type} (itemsOf : Device → List α) (ds : List Device)
    (i i' : Nat) (h : i ≤ i') : partialSizes itemsOf ds i ≤ partialSizes itemsOf ds i' := by
  induction i' with
  | zero =>
      have : i = 0 := by omega
      subst this
      exact Nat.le_refl _
  | succ k ih =>
      by_cases hik : i = k + 1
      · subst hik
        exact Nat.le_refl _
      · exact Nat.le_trans (ih (by omega)) (partialSizes_le_succ itemsOf ds k)

/-! ### Border lemmas -/

theorem mem_rowBorders (r n c : Nat) (h1 : 1 ≤ c) (h2 : c ≤ n) : (r, c) ∈ rowBorders r n := by
  rw [rowBorders, List.mem_map]
  refine ⟨c - 1, ?_, ?_⟩
  · rw [List.mem_range]
    omega
  · have h3 : c - 1 + 1 = c := by omega
    rw [h3]

theorem groupedBodyBorders_mem {α : Type} (itemsOf : Device → List α) (ncols : Nat)
    (ds : List Device) :
    ∀ (rowNum i : Nat) (d : Device), ds[i]? = some d → itemsOf d = [] →
      ∀ (c : Nat), 1 ≤ c → c ≤ ncols →
        (rowNum + partialSizes itemsOf ds i, c) ∈ groupedBodyBorders itemsOf ncols ds rowNum := by
  induction ds with
  | nil => intro rowNum i d hd; simp at hd
  | cons d0 ds ih =>
      intro rowNum i d hd hempty c h1 h2
      rw [groupedBodyBorders]
      cases i with
      | zero =>
          simp only [List.getElem?_cons_zero, Option.some.injEq] at hd
          subst hd
          refine List.mem_append_left _ ?_
          rw [if_pos (by rw [hempty]; rfl), partialSizes_zero, Nat.add_zero]
          exact mem_rowBorders _ _ _ h1 h2
      | succ i' =>
          simp only [List.getElem?_cons_succ] at hd
          refine List.mem_append_right _ ?_
          have hmem := ih (rowNum + blockSize (itemsOf d0)) i' d hd hempty c h1 h2
          rw [partialSizes_cons_succ,
            show rowNum + (blockSize (itemsOf d0) + partialSizes itemsOf ds i') =
              rowNum + blockSize (itemsOf d0) + partialSizes itemsOf ds i' from by omega]
          exact hmem

/-! ### Device sheet lemmas -/

theorem deviceBodyWrites_row_lb (ds : List Device) :
    ∀ (rowNum : Nat), ∀ w ∈ deviceBodyWrites ds rowNum, rowNum ≤ w.1 := by
  induction ds with
  | nil => intro rowNum w hw; simp [deviceBodyWrites] at hw
  | cons d ds ih =>
      intro rowNum w hw
      rw [deviceBodyWrites] at hw
      rcases List.mem_append.mp hw with h | h
      · have h1 := (rowWritesFrom_bounds rowNum _ 1 w h).1
        omega
      · have h1 := ih (rowNum + 1) w h
        omega

theorem deviceBodyWrites_vals (ds : List Device) :
    ∀ (rowNum : Nat), ∀ w ∈ deviceBodyWrites ds rowNum, ∃ d ∈ ds, w.2.2 ∈ deviceRowVals d := by
  induction ds with
  | nil => intro rowNum w hw; simp [deviceBodyWrites] at hw
  | cons d ds ih =>
      intro rowNum w hw
      rw [deviceBodyWrites] at hw
      rcases List.mem_append.mp hw with h | h
      · exact ⟨d, List.mem_cons_self _ _, rowWritesFrom_vals rowNum _ 1 w h⟩
      · obtain ⟨d', hd', h2⟩ := ih (rowNum + 1) w h
        exact ⟨d', List.mem_cons_of_mem _ hd', h2⟩

theorem deviceBody_cell (ds : List Device) :
    ∀ (rowNum i : Nat) (d : Device), ds[i]? = some d →
      ∀ (g : Nat → Nat → CellValue) (c : Nat),
      applyWrites (deviceBodyWrites ds rowNum) g (rowNum + i) c =
        if 1 ≤ c ∧ c < 1 + (deviceRowVals d).length then
          (deviceRowVals d).getD (c - 1) CellValue.none
        else g (rowNum + i) c := by
  induction ds with
  | nil => intro rowNum i d hd; simp at hd
  | cons d0 ds ih =>
      intro rowNum i d hd g c
      rw [deviceBodyWrites, applyWrites_append]
      cases i with
      | zero =>
          simp only [List.getElem?_cons_zero, Option.some.injEq] at hd
          subst hd
          rw [applyWrites_notin _ _ _ _ (fun w hw hcon => by
            have h1 := deviceBodyWrites_row_lb ds (rowNum + 1) w hw
            have h2 := hcon.1
            omega)]
          rw [applyWrites_rowWritesFrom]
          simp only [Nat.add_zero]
          exact if_congr (by simp only [true_and]) rfl rfl
      | succ i' =>
          simp only [List.getElem?_cons_succ] at hd
          have hrow : rowNum + (i' + 1) = (rowNum + 1) + i' := by omega
          rw [hrow, ih (rowNum + 1) i' d hd]
          by_cases hc : 1 ≤ c ∧ c < 1 + (deviceRowVals d).length
          · rw [if_pos hc, if_pos hc]
          · rw [if_neg hc, if_neg hc, applyWrites_rowWritesFrom,
              if_neg (fun hcon => by
                have h2 : (rowNum + 1) + i' = rowNum := hcon.1
                omega)]

/-! ### Sheet-level cell characterizations -/

theorem deviceSheet_cell_header (devices : List Device) (c : Nat)
    (h1 : 1 ≤ c) (h2 : c ≤ 7) :
    (deviceSheet devices).cell 1 c = CellValue.str (devices_headers.getD (c - 1) "") :=
  applyWrites_header_body devices_headers _
    (fun w hw => deviceBodyWrites_row_lb devices 2 w hw) c h1 h2

theorem deviceSheet_cell_data (devices : List Device) (i c : Nat) (d : Device)
    (hd : devices[i]? = some d) :
    (deviceSheet devices).cell (2 + i) c =
      if 1 ≤ c ∧ c < 1 + (deviceRowVals d).length then
        (deviceRowVals d).getD (c - 1) CellValue.none
      else CellValue.none := by
  show applyWrites (headerWrites devices_headers ++ deviceBodyWrites devices 2)
      (fun _ _ => CellValue.none) (2 + i) c = _
  rw [applyWrites_header_invisible devices_headers _ _ c (by omega)]
  rw [deviceBody_cell devices 2 i d hd]

theorem groupedSheet_cell_header {α : Type} (headers : List String)
    (itemsOf : Device → List α) (rowVals : α → List CellValue) (devices : List Device)
    (c : Nat) (h1 : 1 ≤ c) (h2 : c ≤ headers.length) :
    (groupedSheet headers itemsOf rowVals devices).cell 1 c =
      CellValue.str (headers.getD (c - 1) "") :=
  applyWrites_header_body headers _
    (fun w hw => groupedBodyWrites_row_lb itemsOf rowVals devices 2 w hw) c h1 h2

theorem groupedSheet_cell_item {α : Type} (headers : List String)
    (itemsOf : Device → List α) (rowVals : α → List CellValue) (devices : List Device)
    (i j c : Nat) (d : Device) (it : α)
    (hd : devices[i]? = some d) (hit : (itemsOf d)[j]? = some it) :
    (groupedSheet headers itemsOf rowVals devices).cell
        (2 + partialSizes itemsOf devices i + j) c =
      if 1 ≤ c ∧ c < 2 + (rowVals it).length then
        (CellValue.str (if j = 0 then d.name else "") :: rowVals it).getD (c - 1)
          CellValue.none
      else CellValue.none := by
  show applyWrites (headerWrites headers ++ groupedBodyWrites itemsOf rowVals devices 2)
      (fun _ _ => CellValue.none) (2 + partialSizes itemsOf devices i + j) c = _
  rw [applyWrites_header_invisible headers _ _ c (by omega)]
  rw [groupedBody_cell_item itemsOf rowVals devices 2 i j d it hd hit]

theorem groupedSheet_cell_empty {α : Type} (headers : List String)
    (itemsOf : Device → List α) (rowVals : α → List CellValue) (devices : List Device)
    (i c : Nat) (d : Device) (hd : devices[i]? = some d) (hempty : itemsOf d = []) :
    (groupedSheet headers itemsOf rowVals devices).cell
        (2 + partialSizes itemsOf devices i) c =
      if c = 1 then CellValue.str d.name else CellValue.none := by
  show applyWrites (headerWrites headers ++ groupedBodyWrites itemsOf rowVals devices 2)
      (fun _ _ => CellValue.none) (2 + partialSizes itemsOf devices i) c = _
  rw [applyWrites_header_invisible headers _ _ c (by omega)]
  rw [groupedBody_cell_empty itemsOf rowVals devices 2 i d hd hempty]

/-! ### Sizing-pass lemmas -/

theorem guardedMaxFold_cons (p : CellValue → Bool) (f : CellValue → Nat) (v : CellValue)
    (vs : List CellValue) (init : Nat) :
    guardedMaxFold p f init (v :: vs) =
      guardedMaxFold p f (if p v = true ∧ init < f v then f v else init) vs := rfl

theorem guardedMaxFold_eq_foldl_max (p : CellValue → Bool) (f : CellValue → Nat)
    (cells : List CellValue) :
    ∀ (init : Nat), guardedMaxFold p f init cells = ((cells.filter p).map f).foldl max init := by
  induction cells with
  | nil => intro init; rfl
  | cons v vs ih =>
      intro init
      rw [guardedMaxFold_cons]
      by_cases hp : p v = true
      · rw [List.filter_cons_of_pos hp, List.map_cons, List.foldl_cons, ih]
        congr 1
        by_cases hlt : init < f v
        · rw [if_pos ⟨hp, hlt⟩]
          omega
        · rw [if_neg (fun hcon => hlt hcon.2)]
          omega
      · rw [List.filter_cons_of_neg hp, ih]
        congr 1
        rw [if_neg (fun hcon => hp hcon.1)]

theorem foldl_max_le_iff (l : List Nat) : ∀ (m M : Nat),
    l.foldl max m ≤ M ↔ m ≤ M ∧ ∀ x ∈ l, x ≤ M := by
  induction l with
  | nil => intro m M; simp
  | cons a l ih =>
      intro m M
      rw [List.foldl_cons, ih]
      constructor
      · rintro ⟨h1, h2⟩
        refine ⟨by omega, fun x hx => ?_⟩
        rcases List.mem_cons.mp hx with h | h
        · subst h; omega
        · exact h2 x h
      · rintro ⟨h1, h2⟩
        refine ⟨?_, fun x hx => h2 x (List.mem_cons_of_mem _ hx)⟩
        have h3 := h2 a (List.mem_cons_self _ _)
        omega

theorem elem_le_foldl_max (l : List Nat) (x : Nat) (hx : x ∈ l) (m : Nat) :
    x ≤ l.foldl max m :=
  (((foldl_max_le_iff l m _).mp (Nat.le_refl _)).2) x hx

theorem init_le_foldl_max (l : List Nat) (m : Nat) : m ≤ l.foldl max m :=
  ((foldl_max_le_iff l m _).mp (Nat.le_refl _)).1

/-- On any list of cell values that contains no raw boolean and some truthy
value of positive string length, the running maximum computed by the code
(which skips falsy values: `None`, `""`, `0`, `False`) agrees with the spec's
maximum over non-empty cell values. -/
theorem specMaxLength_eq (cells : List CellValue)
    (hnb : ∀ v ∈ cells, ∀ b, v ≠ CellValue.bool b)
    (hdr : ∃ v ∈ cells, truthy v = true ∧ 1 ≤ strLen v) :
    specMaxLength cells = maxLengthFold cells := by
  rw [specMaxLength, maxLengthFold, guardedMaxFold_eq_foldl_max]
  apply Nat.le_antisymm
  · rw [foldl_max_le_iff]
    refine ⟨by omega, fun x hx => ?_⟩
    rw [List.mem_map] at hx
    obtain ⟨v, hv, hfx⟩ := hx
    rw [List.mem_filter] at hv
    obtain ⟨hvc, hvp⟩ := hv
    subst hfx
    by_cases ht : truthy v = true
    · exact elem_le_foldl_max _ _ (List.mem_map_of_mem _ (List.mem_filter.mpr ⟨hvc, ht⟩)) 0
    · obtain ⟨w, hw, hwt, hwl⟩ := hdr
      have hwle : strLen w ≤ ((cells.filter truthy).map strLen).foldl max 0 :=
        elem_le_foldl_max _ _ (List.mem_map_of_mem _ (List.mem_filter.mpr ⟨hw, hwt⟩)) 0
      cases v with
      | none => simp at hvp
      | str s =>
          have hs : s = "" := by
            by_contra hs
            exact ht (by simp [truthy, hs])
          subst hs
          simp [strOf] at hvp
      | int n =>
          have hn : n = 0 := by
            by_contra hn
            exact ht (by simp [truthy, hn])
          subst hn
          have h1 : strLen (CellValue.int 0) = 1 := by decide
          omega
      | bool b => exact absurd rfl (hnb _ hvc b)
  · rw [foldl_max_le_iff]
    refine ⟨by omega, fun x hx => ?_⟩
    rw [List.mem_map] at hx
    obtain ⟨v, hv, hfx⟩ := hx
    rw [List.mem_filter] at hv
    obtain ⟨hvc, hvt⟩ := hv
    subst hfx
    by_cases hs : strOf v = ""
    · have h1 : strLen v = 0 := by rw [strLen, hs]; rfl
      omega
    · refine elem_le_foldl_max _ _ ?_ 0
      refine List.mem_map_of_mem _ (List.mem_filter.mpr ⟨hvc, ?_⟩)
      have hvn : v ≠ CellValue.none := by
        intro hcon
        subst hcon
        simp [truthy] at hvt
      simp only [Bool.and_eq_true, bne_iff_ne, ne_eq]
      exact ⟨hvn, hs⟩

/-- The guard of the row-height loop (`cell.value and "\n" in str(cell.value)`)
coincides with "the cell holds a value containing a newline": the only falsy
values are `None`, `""`, `0` and `False`, whose string forms contain no
newline. -/
theorem truthy_newline_guard (v : CellValue) :
    (truthy v && hasNewline (strOf v)) = ((v != CellValue.none) && hasNewline (strOf v)) := by
  cases v with
  | none => rfl
  | str s =>
      by_cases hs : s = ""
      · subst hs; rfl
      · have h1 : truthy (CellValue.str s) = true := by simp [truthy, hs]
        rw [h1]
        rfl
  | int n =>
      by_cases hn : n = 0
      · subst hn; decide
      · have h1 : truthy (CellValue.int n) = true := by simp [truthy, hn]
        rw [h1]
        rfl
  | bool b =>
      cases b with
      | false => decide
      | true => rfl

theorem maxLinesFold_eq_specMaxLines (cells : List CellValue) :
    maxLinesFold cells = specMaxLines cells := by
  rw [maxLinesFold, guardedMaxFold_eq_foldl_max, specMaxLines]
  congr 2
  exact List.filter_congr (fun v _ => truthy_newline_guard v)

/-- A character list containing `c` splits on `c` into at least two parts. -/
theorem two_le_splitOn_length (c : Char) (l : List Char) (h : c ∈ l) :
    2 ≤ (l.splitOn c).length := by
  induction l with
  | nil => simp at h
  | cons a l ih =>
      show 2 ≤ ((a :: l).splitOnP (· == c)).length
      rw [List.splitOnP_cons]
      by_cases ha : a = c
      · rw [if_pos (by simp [ha])]
        have h1 := List.splitOnP_ne_nil (p := (· == c)) l
        have h2 : 1 ≤ (l.splitOnP (· == c)).length := by
          cases hcase : l.splitOnP (· == c) with
          | nil => exact absurd hcase h1
          | cons x xs => simp only [List.length_cons]; omega
        rw [List.length_cons]
        omega
      · rw [if_neg (by simp [ha])]
        rw [List.length_modifyHead]
        refine ih ?_
        rcases List.mem_cons.mp h with h2 | h2
        · exact absurd h2.symm ha
        · exact h2

theorem hasNewline_two_le_lineCount (s : String) (h : hasNewline s = true) :
    2 ≤ lineCount s := by
  rw [lineCount]
  refine two_le_splitOn_length _ _ ?_
  rw [hasNewline] at h
  simpa using h

theorem one_le_length_of_ne_empty (s : String) (h : s ≠ "") : 1 ≤ s.length := by
  have h2 : s.data ≠ [] := by
    intro hc
    apply h
    cases s with | mk d =>
    simp only [String.data] at hc
    subst hc
    rfl
  have h4 : s.data.length ≠ 0 := fun hc => h2 (List.eq_nil_of_length_eq_zero hc)
  have h3 : s.length = s.data.length := rfl
  omega

/-! ### No raw boolean is ever written to a cell -/

theorem headerWrites_vals (headers : List String) :
    ∀ w ∈ headerWrites headers, ∃ s, w.2.2 = CellValue.str s := by
  intro w hw
  have h1 := rowWritesFrom_vals 1 (headers.map CellValue.str) 1 w hw
  rw [List.mem_map] at h1
  obtain ⟨s, _, hs⟩ := h1
  exact ⟨s, hs.symm⟩

theorem groupedSheet_writes_no_bool {α : Type} (headers : List String)
    (itemsOf : Device → List α) (rowVals : α → List CellValue) (devices : List Device)
    (hrv : ∀ (it : α), ∀ v ∈ rowVals it, ∀ b, v ≠ CellValue.bool b) :
    ∀ w ∈ (groupedSheet headers itemsOf rowVals devices).cells,
      ∀ b, w.2.2 ≠ CellValue.bool b := by
  intro w hw b
  have hw' : w ∈ headerWrites headers ++ groupedBodyWrites itemsOf rowVals devices 2 := hw
  rcases List.mem_append.mp hw' with h | h
  · obtain ⟨s, hs⟩ := headerWrites_vals headers w h
    rw [hs]
    simp
  · rcases groupedBodyWrites_vals itemsOf rowVals devices 2 w h with ⟨s, hs⟩ | ⟨d, _, it, _, hv⟩
    · rw [hs]
      simp
    · exact hrv it _ hv b

theorem deviceSheet_writes_no_bool (devices : List Device) :
    ∀ w ∈ (deviceSheet devices).cells, ∀ b, w.2.2 ≠ CellValue.bool b := by
  intro w hw b
  have hw' : w ∈ headerWrites devices_headers ++ deviceBodyWrites devices 2 := hw
  rcases List.mem_append.mp hw' with h | h
  · obtain ⟨s, hs⟩ := headerWrites_vals devices_headers w h
    rw [hs]
    simp
  · obtain ⟨d, _, hv⟩ := deviceBodyWrites_vals devices 2 w h
    simp only [deviceRowVals, List.mem_cons, List.not_mem_nil, or_false] at hv
    rcases hv with hv | hv | hv | hv | hv | hv | hv
    all_goals rw [hv]
    all_goals simp

theorem softwareRowVals_no_bool (it : Software) :
    ∀ v ∈ softwareRowVals it, ∀ b, v ≠ CellValue.bool b := by
  intro v hv b
  simp only [softwareRowVals, List.mem_cons, List.not_mem_nil, or_false] at hv
  rcases hv with hv | hv | hv
  all_goals rw [hv]
  all_goals simp

theorem vulnRowVals_no_bool (it : Vulnerability) :
    ∀ v ∈ vulnRowVals it, ∀ b, v ≠ CellValue.bool b := by
  intro v hv b
  simp only [vulnRowVals, List.mem_cons, List.not_mem_nil, or_false] at hv
  rcases hv with hv | hv | hv | hv | hv | hv | hv | hv | hv | hv
  all_goals rw [hv]
  all_goals simp

theorem sheet_cell_no_bool (ws : Sheet)
    (h : ∀ w ∈ ws.cells, ∀ b, w.2.2 ≠ CellValue.bool b) (r c : Nat) (b : Bool) :
    ws.cell r c ≠ CellValue.bool b := by
  intro hcon
  rcases applyWrites_mem ws.cells (fun _ _ => CellValue.none) r c with h1 | ⟨w, hw, h1⟩
  · rw [Sheet.cell] at hcon
    rw [h1] at hcon
    exact CellValue.noConfusion hcon
  · rw [Sheet.cell] at hcon
    rw [h1] at hcon
    exact h w hw b hcon

/-! ### Column width and row height helpers -/

theorem mem_columnCells (ws : Sheet) (r c : Nat) (h1 : 1 ≤ r) (h2 : r ≤ ws.nrows) :
    ws.cell r c ∈ ws.columnCells c := by
  rw [Sheet.columnCells]
  exact List.mem_map_of_mem _ (List.mem_range'_1.mpr ⟨h1, by omega⟩)

theorem columnCells_no_bool (ws : Sheet)
    (h : ∀ w ∈ ws.cells, ∀ b, w.2.2 ≠ CellValue.bool b) (c : Nat) :
    ∀ v ∈ ws.columnCells c, ∀ b, v ≠ CellValue.bool b := by
  intro v hv b
  rw [Sheet.columnCells, List.mem_map] at hv
  obtain ⟨r, _, hr⟩ := hv
  rw [← hr]
  exact sheet_cell_no_bool ws h r c b

/-- The width assigned by the code to a column that contains no raw boolean
and holds at least one truthy value equals the spec's formula. -/
theorem sheet_colWidth_spec (ws : Sheet) (c : Nat)
    (hnb : ∀ w ∈ ws.cells, ∀ b, w.2.2 ≠ CellValue.bool b)
    (hhdr : ∃ v ∈ ws.columnCells c, truthy v = true ∧ 1 ≤ strLen v) :
    ws.colWidth c = min ((specMaxLength (ws.columnCells c) + 2) * (1.2 : ℚ)) 100 ∧
      ws.colWidth c ≤ 100 := by
  constructor
  · rw [Sheet.colWidth, adjustedWidth, specMaxLength_eq _ (columnCells_no_bool ws hnb c) hhdr]
  · rw [Sheet.colWidth, adjustedWidth]
    exact min_le_right _ _

theorem getD_mem_of_lt (headers : List String) (k : Nat) (hk : k < headers.length) :
    headers.getD k "" ∈ headers := by
  rw [List.getD_eq_getElem?_getD, List.getElem?_eq_getElem hk, Option.getD_some]
  exact List.getElem_mem hk

theorem grouped_header_cell_truthy {α : Type} (headers : List String)
    (itemsOf : Device → List α) (rowVals : α → List CellValue) (devices : List Device)
    (c : Nat) (h1 : 1 ≤ c) (h2 : c ≤ headers.length) (hne : ∀ h ∈ headers, h ≠ "") :
    ∃ v ∈ (groupedSheet headers itemsOf rowVals devices).columnCells c,
      truthy v = true ∧ 1 ≤ strLen v := by
  have hnr : 1 ≤ (groupedSheet headers itemsOf rowVals devices).nrows := by
    show 1 ≤ 1 + (devices.map (fun d => blockSize (itemsOf d))).sum
    omega
  refine ⟨(groupedSheet headers itemsOf rowVals devices).cell 1 c,
    mem_columnCells _ 1 c (Nat.le_refl 1) hnr, ?_⟩
  rw [groupedSheet_cell_header headers itemsOf rowVals devices c h1 h2]
  have hmem : headers.getD (c - 1) "" ∈ headers := getD_mem_of_lt headers (c - 1) (by omega)
  have hne' := hne _ hmem
  constructor
  · show (headers.getD (c - 1) "" != "") = true
    simp only [bne_iff_ne, ne_eq]
    exact hne'
  · exact one_le_length_of_ne_empty _ hne'

theorem device_header_cell_truthy (devices : List Device) (c : Nat)
    (h1 : 1 ≤ c) (h2 : c ≤ 7) :
    ∃ v ∈ (deviceSheet devices).columnCells c, truthy v = true ∧ 1 ≤ strLen v := by
  have hnr : 1 ≤ (deviceSheet devices).nrows := by
    show 1 ≤ 1 + devices.length
    omega
  refine ⟨(deviceSheet devices).cell 1 c,
    mem_columnCells _ 1 c (Nat.le_refl 1) hnr, ?_⟩
  rw [deviceSheet_cell_header devices c h1 h2]
  have hmem : devices_headers.getD (c - 1) "" ∈ devices_headers :=
    getD_mem_of_lt devices_headers (c - 1) (by
      have h3 : devices_headers.length = 7 := rfl
      omega)
  have hne0 : ∀ h ∈ devices_headers, h ≠ "" := by decide
  have hne' := hne0 _ hmem
  constructor
  · show (devices_headers.getD (c - 1) "" != "") = true
    simp only [bne_iff_ne, ne_eq]
    exact hne'
  · exact one_le_length_of_ne_empty _ hne'

theorem sheet_rowHeight_some (ws : Sheet) (r : Nat)
    (h : ∃ v ∈ ws.rowCells r, v ≠ CellValue.none ∧ hasNewline (strOf v) = true) :
    ws.rowHeight r = Option.some (15 * (specMaxLines (ws.rowCells r) : ℚ)) := by
  obtain ⟨v, hv, hvn, hvnl⟩ := h
  have hmem : lineCount (strOf v) ∈
      (((ws.rowCells r).filter
        (fun v => v != CellValue.none && hasNewline (strOf v))).map
        (fun v => lineCount (strOf v))) := by
    refine List.mem_map_of_mem _ (List.mem_filter.mpr ⟨hv, ?_⟩)
    simp only [Bool.and_eq_true, bne_iff_ne, ne_eq]
    exact ⟨hvn, hvnl⟩
  have h2 : 2 ≤ lineCount (strOf v) := hasNewline_two_le_lineCount _ hvnl
  have h3 : lineCount (strOf v) ≤ specMaxLines (ws.rowCells r) := by
    rw [specMaxLines]
    exact elem_le_foldl_max _ _ hmem 1
  have h4 : 1 < maxLinesFold (ws.rowCells r) := by
    rw [maxLinesFold_eq_specMaxLines]
    omega
  rw [Sheet.rowHeight, if_pos h4, maxLinesFold_eq_specMaxLines]

theorem sheet_rowHeight_none (ws : Sheet) (r : Nat)
    (h : ∀ v ∈ ws.rowCells r, hasNewline (strOf v) = false) :
    ws.rowHeight r = Option.none := by
  have h1 : maxLinesFold (ws.rowCells r) = 1 := by
    rw [maxLinesFold_eq_specMaxLines, specMaxLines]
    have hf : (ws.rowCells r).filter
        (fun v => v != CellValue.none && hasNewline (strOf v)) = [] := by
      rw [List.filter_eq_nil_iff]
      intro a ha
      rw [h a ha]
      simp
    rw [hf]
    rfl
  rw [Sheet.rowHeight, if_neg (by omega)]

/-! ### Record-construction (from_dict) lemmas -/

theorem except_bind_ok {α β : Type} (a : α) (f : α → Except String β) :
    (Except.ok a >>= f) = f a := rfl

theorem except_bind_err {α β : Type} (e : String) (f : α → Except String β) :
    ((Except.error e : Except String α) >>= f) = Except.error e := rfl

theorem except_isOk_pure {α : Type} (a : α) : (pure a : Except String α).isOk = true := rfl

theorem isOk_bind {α β : Type} (e : Except String α) (f : α → Except String β) :
    (e >>= f).isOk = true ↔ ∃ x, e = Except.ok x ∧ (f x).isOk = true := by
  cases e with
  | error k =>
      rw [show ((Except.error k : Except String α) >>= f) = Except.error k from rfl]
      constructor
      · intro h; simp [Except.isOk, Except.toBool] at h
      · rintro ⟨x, hx, _⟩; exact Except.noConfusion hx
  | ok a =>
      rw [show (Except.ok a >>= f) = f a from rfl]
      constructor
      · intro h; exact ⟨a, rfl, h⟩
      · rintro ⟨x, hx, h⟩
        injection hx with hx
        subst hx
        exact h

theorem isOk_getKey_iff {α : Type} (o : Option α) (k : String) (x : α) :
    getKey o k = Except.ok x ↔ o = Option.some x := by
  cases o with
  | none =>
      constructor
      · intro h; exact Except.noConfusion h
      · intro h; exact Option.noConfusion h
  | some a =>
      constructor
      · intro h; injection h with h; rw [h]
      · intro h
        injection h with h
        subst h
        rfl

theorem except_exists_ok_iff {α : Type} (e : Except String α) :
    (∃ x, e = Except.ok x) ↔ e.isOk = true := by
  cases e with
  | error k =>
      constructor
      · rintro ⟨x, hx⟩; exact Except.noConfusion hx
      · intro h; simp [Except.isOk, Except.toBool] at h
  | ok a =>
      constructor
      · intro _; rfl
      · intro _; exact ⟨a, rfl⟩

theorem isOk_mapM_except {α β : Type} (f : α → Except String β) (l : List α) :
    (l.mapM f).isOk = true ↔ ∀ x ∈ l, (f x).isOk = true := by
  induction l with
  | nil =>
      constructor
      · intro _ x hx; simp at hx
      · intro _; rfl
  | cons a l ih =>
      rw [List.mapM_cons]
      cases hfa : f a with
      | error e =>
          rw [except_bind_err]
          constructor
          · intro h; simp [Except.isOk, Except.toBool] at h
          · intro h
            have h2 := h a (List.mem_cons_self _ _)
            rw [hfa] at h2
            simp [Except.isOk, Except.toBool] at h2
      | ok b =>
          rw [except_bind_ok]
          cases hml : l.mapM f with
          | error e2 =>
              rw [except_bind_err]
              constructor
              · intro h; simp [Except.isOk, Except.toBool] at h
              · intro h
                have h2 := ih.mpr (fun x hx => h x (List.mem_cons_of_mem _ hx))
                rw [hml] at h2
                simp [Except.isOk, Except.toBool] at h2
          | ok bs =>
              rw [except_bind_ok]
              constructor
              · intro _ x hx
                rcases List.mem_cons.mp hx with h | h
                · subst h; rw [hfa]; rfl
                · exact ih.mp (by rw [hml]; rfl) x h
              · intro _; rfl

theorem OS_from_dict_isOk (od : OSDict) :
    (OS.from_dict od).isOk = true ↔ od.name.isSome ∧ od.version.isSome := by
  simp only [OS.from_dict, isOk_bind, isOk_getKey_iff, except_isOk_pure, and_true,
    Option.isSome_iff_exists, exists_and_right]

theorem Software_from_dict_isOk (sd : SoftwareDict) :
    (Software.from_dict sd).isOk = true ↔
      sd.name.isSome ∧ sd.version.isSome ∧ sd.vendor.isSome := by
  simp only [Software.from_dict, isOk_bind, isOk_getKey_iff, except_isOk_pure, and_true,
    Option.isSome_iff_exists, exists_and_right]

theorem Vulnerability_from_dict_isOk (vd : VulnDict) :
    (Vulnerability.from_dict vd).isOk = true ↔
      vd.kasperskyID.isSome ∧ vd.productName.isSome ∧ vd.descriptionURL.isSome ∧
      vd.recommendedMajorPatch.isSome ∧ vd.recommendedMinorPatch.isSome ∧
      vd.severityStr.isSome ∧ vd.severity.isSome ∧ vd.cve.isSome ∧
      vd.exploitExists.isSome ∧ vd.malwareExists.isSome := by
  simp only [Vulnerability.from_dict, isOk_bind, isOk_getKey_iff, except_isOk_pure, and_true,
    Option.isSome_iff_exists, exists_and_right]

theorem Device_from_dict_isOk (dd : DeviceDict) :
    (Device.from_dict dd).isOk = true ↔
      dd.name.isSome ∧ dd.fqdn.isSome ∧ dd.ipAddresses.isSome ∧ dd.macAddresses.isSome ∧
      dd.owner.isSome ∧
      (∃ od, dd.os = Option.some od ∧ (OS.from_dict od).isOk = true) ∧
      (∃ sds, dd.software = Option.some sds ∧
        ∀ sd ∈ sds, (Software.from_dict sd).isOk = true) ∧
      (∃ vds, dd.vulnerabilities = Option.some vds ∧
        ∀ vd ∈ vds, (Vulnerability.from_dict vd).isOk = true) := by
  simp only [Device.from_dict, isOk_bind, isOk_getKey_iff, except_isOk_pure, and_true,
    Option.isSome_iff_exists, exists_and_right, except_exists_ok_iff, isOk_mapM_except]
  constructor
  · rintro ⟨h1, h2, h3, h4, h5, od, hos, hok, sds, hsw, hsok, vds, hv, hvok⟩
    exact ⟨h1, h2, h3, h4, h5, ⟨od, hos, hok⟩, ⟨sds, hsw, hsok⟩, ⟨vds, hv, hvok⟩⟩
  · rintro ⟨h1, h2, h3, h4, h5, ⟨od, hos, hok⟩, ⟨sds, hsw, hsok⟩, vds, hv, hvok⟩
    exact ⟨h1, h2, h3, h4, h5, od, hos, hok, sds, hsw, hsok, vds, hv, hvok⟩

theorem OS_from_dict_missing_name (od : OSDict) (h : od.name = Option.none) :
    OS.from_dict od = Except.error "name" := by
  simp only [OS.from_dict, h, getKey, except_bind_err]

theorem device_from_dict_missing_name (dd : DeviceDict) (h : dd.name = Option.none) :
    Device.from_dict dd = Except.error "name" := by
  simp only [Device.from_dict, h, getKey, except_bind_err]

theorem mainRun_uncaught (data : List DeviceDict) (k : String)
    (h : data.mapM Device.from_dict = Except.error k) :
    mainRun (ReadResult.ok data) = RunOutcome.uncaught k := by
  show (match data.mapM Device.from_dict with
    | Except.error k => RunOutcome.uncaught k
    | Except.ok devs => RunOutcome.saved devs) = RunOutcome.uncaught k
  rw [h]

theorem mainRun_saved (data : List DeviceDict) (devs : List Device)
    (h : data.mapM Device.from_dict = Except.ok devs) :
    mainRun (ReadResult.ok data) = RunOutcome.saved devs := by
  show (match data.mapM Device.from_dict with
    | Except.error k => RunOutcome.uncaught k
    | Except.ok devs => RunOutcome.saved devs) = RunOutcome.saved devs
  rw [h]

theorem mainRun_not_saved_of_missing_name (data : List DeviceDict) (dd : DeviceDict)
    (hdd : dd ∈ data) (hname : dd.name = Option.none) :
    (mainRun (ReadResult.ok data)).wroteOutput = false := by
  cases hm : data.mapM Device.from_dict with
  | error k =>
      rw [mainRun_uncaught data k hm]
      rfl
  | ok devs =>
      exfalso
      have h1 := (isOk_mapM_except Device.from_dict data).mp (by rw [hm]; rfl) dd hdd
      rw [device_from_dict_missing_name dd hname] at h1
      simp [Except.isOk, Except.toBool] at h1

/-! ### Per-sheet cell helpers -/

theorem softwareSheet_item_cells (devices : List Device) (i j : Nat) (d : Device)
    (sw : Software) (hd : devices[i]? = some d) (hsw : d.software[j]? = some sw) :
    (softwareSheet devices).cell (swStart devices i + j) 2 = CellValue.str sw.name ∧
    (softwareSheet devices).cell (swStart devices i + j) 3 = CellValue.str sw.version ∧
    (softwareSheet devices).cell (swStart devices i + j) 4 = CellValue.str sw.vendor := by
  unfold softwareSheet swStart
  refine ⟨?_, ?_, ?_⟩
  · rw [groupedSheet_cell_item software_headers (fun d => d.software) softwareRowVals
      devices i j 2 d sw hd hsw]
    rfl
  · rw [groupedSheet_cell_item software_headers (fun d => d.software) softwareRowVals
      devices i j 3 d sw hd hsw]
    rfl
  · rw [groupedSheet_cell_item software_headers (fun d => d.software) softwareRowVals
      devices i j 4 d sw hd hsw]
    rfl

theorem vulnSheet_item_cells (devices : List Device) (i j : Nat) (d : Device)
    (vu : Vulnerability) (hd : devices[i]? = some d)
    (hvu : d.vulnerabilities[j]? = some vu) :
    (vulnSheet devices).cell (vuStart devices i + j) 2 = CellValue.str vu.kaspersky_id ∧
    (vulnSheet devices).cell (vuStart devices i + j) 3 = CellValue.str vu.product_name ∧
    (vulnSheet devices).cell (vuStart devices i + j) 4 = CellValue.int vu.severity ∧
    (vulnSheet devices).cell (vuStart devices i + j) 5 = CellValue.str vu.severity_str ∧
    (vulnSheet devices).cell (vuStart devices i + j) 6 =
      CellValue.str (String.intercalate ", " vu.cve) ∧
    (vulnSheet devices).cell (vuStart devices i + j) 7 =
      CellValue.str (if vu.exploit_exists then "Yes" else "No") ∧
    (vulnSheet devices).cell (vuStart devices i + j) 8 =
      CellValue.str (if vu.malware_exists then "Yes" else "No") ∧
    (vulnSheet devices).cell (vuStart devices i + j) 9 =
      CellValue.str vu.recommended_major_patch ∧
    (vulnSheet devices).cell (vuStart devices i + j) 10 =
      CellValue.str vu.recommended_minor_patch ∧
    (vulnSheet devices).cell (vuStart devices i + j) 11 =
      CellValue.str vu.description_url := by
  unfold vulnSheet vuStart
  refine ⟨?_, ?_, ?_, ?_, ?_, ?_, ?_, ?_, ?_, ?_⟩
  · rw [groupedSheet_cell_item vuln_headers (fun d => d.vulnerabilities) vulnRowVals
      devices i j 2 d vu hd hvu]
    rfl
  · rw [groupedSheet_cell_item vuln_headers (fun d => d.vulnerabilities) vulnRowVals
      devices i j 3 d vu hd hvu]
    rfl
  · rw [groupedSheet_cell_item vuln_headers (fun d => d.vulnerabilities) vulnRowVals
      devices i j 4 d vu hd hvu]
    rfl
  · rw [groupedSheet_cell_item vuln_headers (fun d => d.vulnerabilities) vulnRowVals
      devices i j 5 d vu hd hvu]
    rfl
  · rw [groupedSheet_cell_item vuln_headers (fun d => d.vulnerabilities) vulnRowVals
      devices i j 6 d vu hd hvu]
    rfl
  · rw [groupedSheet_cell_item vuln_headers (fun d => d.vulnerabilities) vulnRowVals
      devices i j 7 d vu hd hvu]
    rfl
  · rw [groupedSheet_cell_item vuln_headers (fun d => d.vulnerabilities) vulnRowVals
      devices i j 8 d vu hd hvu]
    rfl
  · rw [groupedSheet_cell_item vuln_headers (fun d => d.vulnerabilities) vulnRowVals
      devices i j 9 d vu hd hvu]
    rfl
  · rw [groupedSheet_cell_item vuln_headers (fun d => d.vulnerabilities) vulnRowVals
      devices i j 10 d vu hd hvu]
    rfl
  · rw [groupedSheet_cell_item vuln_headers (fun d => d.vulnerabilities) vulnRowVals
      devices i j 11 d vu hd hvu]
    rfl

theorem groupedSheet_col1_first {α : Type} (headers : List String)
    (itemsOf : Device → List α) (rowVals : α → List CellValue) (devices : List Device)
    (i : Nat) (d : Device) (it : α) (hd : devices[i]? = some d)
    (hit : (itemsOf d)[0]? = some it) :
    (groupedSheet headers itemsOf rowVals devices).cell
      (2 + partialSizes itemsOf devices i) 1 = CellValue.str d.name := by
  have h := groupedSheet_cell_item headers itemsOf rowVals devices i 0 1 d it hd hit
  rw [Nat.add_zero] at h
  rw [h, if_pos ⟨Nat.le_refl 1, by omega⟩, List.getD_cons_zero, if_pos rfl]

theorem groupedSheet_col1_rest {α : Type} (headers : List String)
    (itemsOf : Device → List α) (rowVals : α → List CellValue) (devices : List Device)
    (i j : Nat) (d : Device) (it : α) (hd : devices[i]? = some d)
    (hit : (itemsOf d)[j]? = some it) (hj : j ≠ 0) :
    (groupedSheet headers itemsOf rowVals devices).cell
      (2 + partialSizes itemsOf devices i + j) 1 = CellValue.str "" := by
  rw [groupedSheet_cell_item headers itemsOf rowVals devices i j 1 d it hd hit,
    if_pos ⟨Nat.le_refl 1, by omega⟩, List.getD_cons_zero, if_neg hj]

theorem empty_block_unmerged {α : Type} (itemsOf : Device → List α) (devices : List Device)
    (i : Nat) (d : Device) (hd : devices[i]? = some d) (hempty : itemsOf d = []) :
    ∀ m ∈ groupedBodyMerges itemsOf devices 2,
      ¬(m.1 ≤ 2 + partialSizes itemsOf devices i ∧
        2 + partialSizes itemsOf devices i ≤ m.2.2.1) := by
  intro m hm h
  obtain ⟨hle1, hle2⟩ := h
  obtain ⟨i', d', hd', hlen', hm'⟩ := groupedBodyMerges_mem itemsOf devices 2 m hm
  subst hm'
  dsimp only at hle1 hle2
  rcases Nat.lt_trichotomy i i' with h | h | h
  · have ha := partialSizes_add_block itemsOf devices i d hd
    have hb := partialSizes_mono itemsOf devices (i + 1) i' h
    have hbs : blockSize (itemsOf d) = 1 := by rw [hempty]; rfl
    omega
  · subst h
    rw [hd] at hd'
    injection hd' with hd'
    subst hd'
    rw [hempty] at hlen'
    simp at hlen'
  · have ha := partialSizes_add_block itemsOf devices i' d' hd'
    have hb := partialSizes_mono itemsOf devices (i' + 1) i h
    have hne' : itemsOf d' ≠ [] := by
      intro hcon
      rw [hcon] at hlen'
      simp at hlen'
    have hbs := blockSize_of_ne_nil _ hne'
    omega

theorem blockStart_inj {α : Type} (itemsOf : Device → List α) (ds : List Device)
    (i i' : Nat) (d d' : Device) (hd : ds[i]? = some d) (hd' : ds[i']? = some d')
    (heq : partialSizes itemsOf ds i = partialSizes itemsOf ds i') : i = i' := by
  by_contra hne
  rcases Nat.lt_trichotomy i i' with h | h | h
  · have ha := partialSizes_add_block itemsOf ds i d hd
    have hb := partialSizes_mono itemsOf ds (i + 1) i' h
    have hc := blockSize_pos (itemsOf d)
    omega
  · exact hne h
  · have ha := partialSizes_add_block itemsOf ds i' d' hd'
    have hb := partialSizes_mono itemsOf ds (i' + 1) i h
    have hc := blockSize_pos (itemsOf d')
    omega

/-! ### Claim theorems -/

/-- C3: for every input sequence of devices, the Device sheet contains exactly
one data row per device, in input order (device `i` in sheet row `2 + i`, with
the used range spanning exactly `1 + n` rows), and that row holds, in column
order: the device's name, its FQDN list joined with ", ", its IP address list
joined with ", ", its MAC address list joined with ", ", its owner, its OS
name, and its OS version. -/
theorem c3_device_sheet_rows (devices : List Device) (i : Nat) (d : Device)
    (hd : devices[i]? = some d) :
    (deviceSheet devices).nrows = 1 + devices.length ∧
    (deviceSheet devices).cell (2 + i) 1 = CellValue.str d.name ∧
    (deviceSheet devices).cell (2 + i) 2 =
      CellValue.str (String.intercalate ", " d.fqdn) ∧
    (deviceSheet devices).cell (2 + i) 3 =
      CellValue.str (String.intercalate ", " d.ip_addresses) ∧
    (deviceSheet devices).cell (2 + i) 4 =
      CellValue.str (String.intercalate ", " d.mac_addresses) ∧
    (deviceSheet devices).cell (2 + i) 5 = CellValue.str d.owner ∧
    (deviceSheet devices).cell (2 + i) 6 = CellValue.str d.os.name ∧
    (deviceSheet devices).cell (2 + i) 7 = CellValue.str d.os.version := by
  refine ⟨rfl, ?_, ?_, ?_, ?_, ?_, ?_, ?_⟩
  all_goals rw [deviceSheet_cell_data devices i _ d hd]
  all_goals rfl

/-- C3 witness: a concrete one-device instance of `c3_device_sheet_rows`. -/
theorem c3_device_sheet_rows_witness :
    ([⟨"host1", [], ["10.0.0.1"], [], "alice", ⟨"Linux", "5.10"⟩, [], []⟩] :
        List Device)[0]? = some ⟨"host1", [], ["10.0.0.1"], [], "alice",
        ⟨"Linux", "5.10"⟩, [], []⟩ ∧
    ((deviceSheet [⟨"host1", [], ["10.0.0.1"], [], "alice", ⟨"Linux", "5.10"⟩, [], []⟩]).nrows
        = 1 + ([⟨"host1", [], ["10.0.0.1"], [], "alice", ⟨"Linux", "5.10"⟩, [], []⟩] :
        List Device).length ∧
      (deviceSheet [⟨"host1", [], ["10.0.0.1"], [], "alice", ⟨"Linux", "5.10"⟩, [], []⟩]).cell
        (2 + 0) 1 = CellValue.str "host1" ∧
      (deviceSheet [⟨"host1", [], ["10.0.0.1"], [], "alice", ⟨"Linux", "5.10"⟩, [], []⟩]).cell
        (2 + 0) 2 = CellValue.str (String.intercalate ", " []) ∧
      (deviceSheet [⟨"host1", [], ["10.0.0.1"], [], "alice", ⟨"Linux", "5.10"⟩, [], []⟩]).cell
        (2 + 0) 3 = CellValue.str (String.intercalate ", " ["10.0.0.1"]) ∧
      (deviceSheet [⟨"host1", [], ["10.0.0.1"], [], "alice", ⟨"Linux", "5.10"⟩, [], []⟩]).cell
        (2 + 0) 4 = CellValue.str (String.intercalate ", " []) ∧
      (deviceSheet [⟨"host1", [], ["10.0.0.1"], [], "alice", ⟨"Linux", "5.10"⟩, [], []⟩]).cell
        (2 + 0) 5 = CellValue.str "alice" ∧
      (deviceSheet [⟨"host1", [], ["10.0.0.1"], [], "alice", ⟨"Linux", "5.10"⟩, [], []⟩]).cell
        (2 + 0) 6 = CellValue.str "Linux" ∧
      (deviceSheet [⟨"host1", [], ["10.0.0.1"], [], "alice", ⟨"Linux", "5.10"⟩, [], []⟩]).cell
        (2 + 0) 7 = CellValue.str "5.10") :=
  ⟨rfl, c3_device_sheet_rows _ 0 _ rfl⟩

/-- C4: round-trip — every scalar field value written to a cell equals the
corresponding record field verbatim; list-valued fields (FQDNs, IPs, MACs,
CVE ids) are joined with exactly ", "; the booleans `exploit_exists` and
`malware_exists` render as exactly "Yes" when true and "No" when false. -/
theorem c4_round_trip (devices : List Device) (i : Nat) (d : Device)
    (hd : devices[i]? = some d) :
    ((deviceSheet devices).cell (2 + i) 1 = CellValue.str d.name ∧
     (deviceSheet devices).cell (2 + i) 2 =
       CellValue.str (String.intercalate ", " d.fqdn) ∧
     (deviceSheet devices).cell (2 + i) 3 =
       CellValue.str (String.intercalate ", " d.ip_addresses) ∧
     (deviceSheet devices).cell (2 + i) 4 =
       CellValue.str (String.intercalate ", " d.mac_addresses) ∧
     (deviceSheet devices).cell (2 + i) 5 = CellValue.str d.owner ∧
     (deviceSheet devices).cell (2 + i) 6 = CellValue.str d.os.name ∧
     (deviceSheet devices).cell (2 + i) 7 = CellValue.str d.os.version) ∧
    (∀ (j : Nat) (sw : Software), d.software[j]? = some sw →
      (softwareSheet devices).cell (swStart devices i + j) 2 = CellValue.str sw.name ∧
      (softwareSheet devices).cell (swStart devices i + j) 3 = CellValue.str sw.version ∧
      (softwareSheet devices).cell (swStart devices i + j) 4 = CellValue.str sw.vendor) ∧
    (∀ (j : Nat) (vu : Vulnerability), d.vulnerabilities[j]? = some vu →
      (vulnSheet devices).cell (vuStart devices i + j) 2 = CellValue.str vu.kaspersky_id ∧
      (vulnSheet devices).cell (vuStart devices i + j) 3 = CellValue.str vu.product_name ∧
      (vulnSheet devices).cell (vuStart devices i + j) 4 = CellValue.int vu.severity ∧
      (vulnSheet devices).cell (vuStart devices i + j) 5 = CellValue.str vu.severity_str ∧
      (vulnSheet devices).cell (vuStart devices i + j) 6 =
        CellValue.str (String.intercalate ", " vu.cve) ∧
      (vulnSheet devices).cell (vuStart devices i + j) 7 =
        CellValue.str (if vu.exploit_exists then "Yes" else "No") ∧
      (vulnSheet devices).cell (vuStart devices i + j) 8 =
        CellValue.str (if vu.malware_exists then "Yes" else "No") ∧
      (vulnSheet devices).cell (vuStart devices i + j) 9 =
        CellValue.str vu.recommended_major_patch ∧
      (vulnSheet devices).cell (vuStart devices i + j) 10 =
        CellValue.str vu.recommended_minor_patch ∧
      (vulnSheet devices).cell (vuStart devices i + j) 11 =
        CellValue.str vu.description_url) := by
  refine ⟨?_, ?_, ?_⟩
  · refine ⟨?_, ?_, ?_, ?_, ?_, ?_, ?_⟩
    all_goals rw [deviceSheet_cell_data devices i _ d hd]
    all_goals rfl
  · intro j sw hsw
    exact softwareSheet_item_cells devices i j d sw hd hsw
  · intro j vu hvu
    exact vulnSheet_item_cells devices i j d vu hd hvu

/-- C4 witness: `c4_round_trip` at a concrete two-device list. -/
theorem c4_round_trip_witness :
    (wDevices[0]? = some wDevice) ∧
    (((deviceSheet wDevices).cell (2 + 0) 1 = CellValue.str wDevice.name ∧
      (deviceSheet wDevices).cell (2 + 0) 2 =
        CellValue.str (String.intercalate ", " wDevice.fqdn) ∧
      (deviceSheet wDevices).cell (2 + 0) 3 =
        CellValue.str (String.intercalate ", " wDevice.ip_addresses) ∧
      (deviceSheet wDevices).cell (2 + 0) 4 =
        CellValue.str (String.intercalate ", " wDevice.mac_addresses) ∧
      (deviceSheet wDevices).cell (2 + 0) 5 = CellValue.str wDevice.owner ∧
      (deviceSheet wDevices).cell (2 + 0) 6 = CellValue.str wDevice.os.name ∧
      (deviceSheet wDevices).cell (2 + 0) 7 = CellValue.str wDevice.os.version) ∧
     (∀ (j : Nat) (sw : Software), wDevice.software[j]? = some sw →
       (softwareSheet wDevices).cell (swStart wDevices 0 + j) 2 = CellValue.str sw.name ∧
       (softwareSheet wDevices).cell (swStart wDevices 0 + j) 3 = CellValue.str sw.version ∧
       (softwareSheet wDevices).cell (swStart wDevices 0 + j) 4 = CellValue.str sw.vendor) ∧
     (∀ (j : Nat) (vu : Vulnerability), wDevice.vulnerabilities[j]? = some vu →
       (vulnSheet wDevices).cell (vuStart wDevices 0 + j) 2 = CellValue.str vu.kaspersky_id ∧
       (vulnSheet wDevices).cell (vuStart wDevices 0 + j) 3 = CellValue.str vu.product_name ∧
       (vulnSheet wDevices).cell (vuStart wDevices 0 + j) 4 = CellValue.int vu.severity ∧
       (vulnSheet wDevices).cell (vuStart wDevices 0 + j) 5 = CellValue.str vu.severity_str ∧
       (vulnSheet wDevices).cell (vuStart wDevices 0 + j) 6 =
         CellValue.str (String.intercalate ", " vu.cve) ∧
       (vulnSheet wDevices).cell (vuStart wDevices 0 + j) 7 =
         CellValue.str (if vu.exploit_exists then "Yes" else "No") ∧
       (vulnSheet wDevices).cell (vuStart wDevices 0 + j) 8 =
         CellValue.str (if vu.malware_exists then "Yes" else "No") ∧
       (vulnSheet wDevices).cell (vuStart wDevices 0 + j) 9 =
         CellValue.str vu.recommended_major_patch ∧
       (vulnSheet wDevices).cell (vuStart wDevices 0 + j) 10 =
         CellValue.str vu.recommended_minor_patch ∧
       (vulnSheet wDevices).cell (vuStart wDevices 0 + j) 11 =
         CellValue.str vu.description_url)) :=
  ⟨rfl, c4_round_trip wDevices 0 wDevice rfl⟩

/-- C1: in the Software and the Vulnerability sheet, a device whose item list
has `N ≥ 1` items occupies exactly `N` rows in input order (the next block
starts exactly `N` rows later, and the sheet's used range is the header row
plus the sum of the block sizes); the device name is written only in the
first row of the block (column 1 of subsequent rows holds ""); the block's
column-1 cells are merged into a single range spanning exactly those `N` rows
iff `N > 1`; and every merged range in the sheet is exactly the column-1 span
of one device's block, so blocks of different devices are never merged. -/
theorem c1_grouped_blocks (devices : List Device) (i : Nat) (d : Device)
    (hd : devices[i]? = some d) :
    (softwareSheet devices).nrows =
      1 + (devices.map (fun d => blockSize d.software)).sum ∧
    (vulnSheet devices).nrows =
      1 + (devices.map (fun d => blockSize d.vulnerabilities)).sum ∧
    (d.software ≠ [] →
      ((softwareSheet devices).cell (swStart devices i) 1 = CellValue.str d.name ∧
       (∀ j, 1 ≤ j → j < d.software.length →
         (softwareSheet devices).cell (swStart devices i + j) 1 = CellValue.str "") ∧
       (∀ (j : Nat) (sw : Software), d.software[j]? = some sw →
         (softwareSheet devices).cell (swStart devices i + j) 2 = CellValue.str sw.name ∧
         (softwareSheet devices).cell (swStart devices i + j) 3 = CellValue.str sw.version ∧
         (softwareSheet devices).cell (swStart devices i + j) 4 = CellValue.str sw.vendor) ∧
       swStart devices (i + 1) = swStart devices i + d.software.length ∧
       ((swStart devices i, 1, swStart devices i + d.software.length - 1, 1) ∈
          (softwareSheet devices).merges ↔ 1 < d.software.length))) ∧
    (∀ m ∈ (softwareSheet devices).merges, ∃ (i' : Nat) (d' : Device),
       devices[i']? = some d' ∧ 1 < d'.software.length ∧
       m = (swStart devices i', 1, swStart devices i' + d'.software.length - 1, 1)) ∧
    (d.vulnerabilities ≠ [] →
      ((vulnSheet devices).cell (vuStart devices i) 1 = CellValue.str d.name ∧
       (∀ j, 1 ≤ j → j < d.vulnerabilities.length →
         (vulnSheet devices).cell (vuStart devices i + j) 1 = CellValue.str "") ∧
       vuStart devices (i + 1) = vuStart devices i + d.vulnerabilities.length ∧
       ((vuStart devices i, 1, vuStart devices i + d.vulnerabilities.length - 1, 1) ∈
          (vulnSheet devices).merges ↔ 1 < d.vulnerabilities.length))) ∧
    (∀ m ∈ (vulnSheet devices).merges, ∃ (i' : Nat) (d' : Device),
       devices[i']? = some d' ∧ 1 < d'.vulnerabilities.length ∧
       m = (vuStart devices i', 1,
            vuStart devices i' + d'.vulnerabilities.length - 1, 1)) := by
  unfold softwareSheet vulnSheet swStart vuStart
  refine ⟨rfl, rfl, ?_, ?_, ?_, ?_⟩
  · intro hne
    have h0 : 0 < d.software.length := List.length_pos.mpr hne
    refine ⟨?_, ?_, ?_, ?_, ?_⟩
    · exact groupedSheet_col1_first software_headers (fun d => d.software) softwareRowVals
        devices i d _ hd (List.getElem?_eq_getElem h0)
    · intro j hj1 hj2
      exact groupedSheet_col1_rest software_headers (fun d => d.software) softwareRowVals
        devices i j d _ hd (List.getElem?_eq_getElem hj2) (by omega)
    · intro j sw hsw
      exact softwareSheet_item_cells devices i j d sw hd hsw
    · have ha : partialSizes (fun d => d.software) devices (i + 1) =
          partialSizes (fun d => d.software) devices i + blockSize d.software :=
        partialSizes_add_block _ devices i d hd
      have hb : blockSize d.software = d.software.length := blockSize_of_ne_nil _ hne
      omega
    · constructor
      · intro hmem
        obtain ⟨i', d', hd', hlen', heq⟩ :=
          groupedBodyMerges_mem (fun d => d.software) devices 2 _ hmem
        simp only [Prod.mk.injEq] at heq
        obtain ⟨h1, -, -, -⟩ := heq
        have hpp : partialSizes (fun d => d.software) devices i =
            partialSizes (fun d => d.software) devices i' := by omega
        have hii := blockStart_inj (fun d => d.software) devices i i' d d' hd hd' hpp
        subst hii
        rw [hd] at hd'
        injection hd' with hd'
        subst hd'
        exact hlen'
      · intro hN
        exact groupedBodyMerges_mem_of (fun d => d.software) devices 2 i d hd hN
  · intro m hm
    obtain ⟨i', d', hd', hlen', heq⟩ :=
      groupedBodyMerges_mem (fun d => d.software) devices 2 m hm
    exact ⟨i', d', hd', hlen', heq⟩
  · intro hne
    have h0 : 0 < d.vulnerabilities.length := List.length_pos.mpr hne
    refine ⟨?_, ?_, ?_, ?_⟩
    · exact groupedSheet_col1_first vuln_headers (fun d => d.vulnerabilities) vulnRowVals
        devices i d _ hd (List.getElem?_eq_getElem h0)
    · intro j hj1 hj2
      exact groupedSheet_col1_rest vuln_headers (fun d => d.vulnerabilities) vulnRowVals
        devices i j d _ hd (List.getElem?_eq_getElem hj2) (by omega)
    · have ha : partialSizes (fun d => d.vulnerabilities) devices (i + 1) =
          partialSizes (fun d => d.vulnerabilities) devices i +
            blockSize d.vulnerabilities :=
        partialSizes_add_block _ devices i d hd
      have hb : blockSize d.vulnerabilities = d.vulnerabilities.length :=
        blockSize_of_ne_nil _ hne
      omega
    · constructor
      · intro hmem
        obtain ⟨i', d', hd', hlen', heq⟩ :=
          groupedBodyMerges_mem (fun d => d.vulnerabilities) devices 2 _ hmem
        simp only [Prod.mk.injEq] at heq
        obtain ⟨h1, -, -, -⟩ := heq
        have hpp : partialSizes (fun d => d.vulnerabilities) devices i =
            partialSizes (fun d => d.vulnerabilities) devices i' := by omega
        have hii := blockStart_inj (fun d => d.vulnerabilities) devices i i' d d' hd hd' hpp
        subst hii
        rw [hd] at hd'
        injection hd' with hd'
        subst hd'
        exact hlen'
      · intro hN
        exact groupedBodyMerges_mem_of (fun d => d.vulnerabilities) devices 2 i d hd hN
  · intro m hm
    obtain ⟨i', d', hd', hlen', heq⟩ :=
      groupedBodyMerges_mem (fun d => d.vulnerabilities) devices 2 m hm
    exact ⟨i', d', hd', hlen', heq⟩

/-- C1 witness: `c1_grouped_blocks` at a concrete two-device list whose first
device holds two software items and one vulnerability. -/
theorem c1_grouped_blocks_witness :
    (wDevices[0]? = some wDevice) ∧
    ((softwareSheet wDevices).nrows =
       1 + (wDevices.map (fun d => blockSize d.software)).sum ∧
     (vulnSheet wDevices).nrows =
       1 + (wDevices.map (fun d => blockSize d.vulnerabilities)).sum ∧
     (wDevice.software ≠ [] →
       ((softwareSheet wDevices).cell (swStart wDevices 0) 1 =
          CellValue.str wDevice.name ∧
        (∀ j, 1 ≤ j → j < wDevice.software.length →
          (softwareSheet wDevices).cell (swStart wDevices 0 + j) 1 = CellValue.str "") ∧
        (∀ (j : Nat) (sw : Software), wDevice.software[j]? = some sw →
          (softwareSheet wDevices).cell (swStart wDevices 0 + j) 2 =
            CellValue.str sw.name ∧
          (softwareSheet wDevices).cell (swStart wDevices 0 + j) 3 =
            CellValue.str sw.version ∧
          (softwareSheet wDevices).cell (swStart wDevices 0 + j) 4 =
            CellValue.str sw.vendor) ∧
        swStart wDevices (0 + 1) = swStart wDevices 0 + wDevice.software.length ∧
        ((swStart wDevices 0, 1, swStart wDevices 0 + wDevice.software.length - 1, 1) ∈
           (softwareSheet wDevices).merges ↔ 1 < wDevice.software.length))) ∧
     (∀ m ∈ (softwareSheet wDevices).merges, ∃ (i' : Nat) (d' : Device),
        wDevices[i']? = some d' ∧ 1 < d'.software.length ∧
        m = (swStart wDevices i', 1, swStart wDevices i' + d'.software.length - 1, 1)) ∧
     (wDevice.vulnerabilities ≠ [] →
       ((vulnSheet wDevices).cell (vuStart wDevices 0) 1 = CellValue.str wDevice.name ∧
        (∀ j, 1 ≤ j → j < wDevice.vulnerabilities.length →
          (vulnSheet wDevices).cell (vuStart wDevices 0 + j) 1 = CellValue.str "") ∧
        vuStart wDevices (0 + 1) = vuStart wDevices 0 + wDevice.vulnerabilities.length ∧
        ((vuStart wDevices 0, 1,
          vuStart wDevices 0 + wDevice.vulnerabilities.length - 1, 1) ∈
           (vulnSheet wDevices).merges ↔ 1 < wDevice.vulnerabilities.length))) ∧
     (∀ m ∈ (vulnSheet wDevices).merges, ∃ (i' : Nat) (d' : Device),
        wDevices[i']? = some d' ∧ 1 < d'.vulnerabilities.length ∧
        m = (vuStart wDevices i', 1,
             vuStart wDevices i' + d'.vulnerabilities.length - 1, 1))) :=
  ⟨rfl, c1_grouped_blocks wDevices 0 wDevice rfl⟩

/-- C2: in the Software and the Vulnerability sheet, a device whose item list
is empty occupies exactly one row (the next block starts one row later), with
the device name in column 1 and every other column unset (blank); that row
receives a thin border in every column of the sheet, and its row is covered
by no merged range (it is never merged with any other device's block). -/
theorem c2_empty_block (devices : List Device) (i : Nat) (d : Device)
    (hd : devices[i]? = some d) :
    (d.software = [] →
      ((softwareSheet devices).cell (swStart devices i) 1 = CellValue.str d.name ∧
       (∀ c, 2 ≤ c → (softwareSheet devices).cell (swStart devices i) c =
         CellValue.none) ∧
       (∀ c, 1 ≤ c → c ≤ 4 →
         (swStart devices i, c) ∈ (softwareSheet devices).borders) ∧
       blockSize d.software = 1 ∧
       swStart devices (i + 1) = swStart devices i + 1 ∧
       (∀ m ∈ (softwareSheet devices).merges,
         ¬(m.1 ≤ swStart devices i ∧ swStart devices i ≤ m.2.2.1)))) ∧
    (d.vulnerabilities = [] →
      ((vulnSheet devices).cell (vuStart devices i) 1 = CellValue.str d.name ∧
       (∀ c, 2 ≤ c → (vulnSheet devices).cell (vuStart devices i) c =
         CellValue.none) ∧
       (∀ c, 1 ≤ c → c ≤ 11 →
         (vuStart devices i, c) ∈ (vulnSheet devices).borders) ∧
       blockSize d.vulnerabilities = 1 ∧
       vuStart devices (i + 1) = vuStart devices i + 1 ∧
       (∀ m ∈ (vulnSheet devices).merges,
         ¬(m.1 ≤ vuStart devices i ∧ vuStart devices i ≤ m.2.2.1)))) := by
  unfold softwareSheet vulnSheet swStart vuStart
  constructor
  · intro hempty
    refine ⟨?_, ?_, ?_, ?_, ?_, ?_⟩
    · rw [groupedSheet_cell_empty software_headers (fun d => d.software) softwareRowVals
        devices i 1 d hd hempty, if_pos rfl]
    · intro c hc
      rw [groupedSheet_cell_empty software_headers (fun d => d.software) softwareRowVals
        devices i c d hd hempty, if_neg (by omega)]
    · intro c h1 h2
      refine List.mem_append_right _ ?_
      refine groupedBodyBorders_mem (fun d => d.software) software_headers.length
        devices 2 i d hd hempty c h1 ?_
      have h3 : software_headers.length = 4 := rfl
      omega
    · rw [hempty]
      rfl
    · have ha : partialSizes (fun d => d.software) devices (i + 1) =
          partialSizes (fun d => d.software) devices i + blockSize d.software :=
        partialSizes_add_block _ devices i d hd
      have hb : blockSize d.software = 1 := by rw [hempty]; rfl
      omega
    · exact empty_block_unmerged (fun d => d.software) devices i d hd hempty
  · intro hempty
    refine ⟨?_, ?_, ?_, ?_, ?_, ?_⟩
    · rw [groupedSheet_cell_empty vuln_headers (fun d => d.vulnerabilities) vulnRowVals
        devices i 1 d hd hempty, if_pos rfl]
    · intro c hc
      rw [groupedSheet_cell_empty vuln_headers (fun d => d.vulnerabilities) vulnRowVals
        devices i c d hd hempty, if_neg (by omega)]
    · intro c h1 h2
      refine List.mem_append_right _ ?_
      refine groupedBodyBorders_mem (fun d => d.vulnerabilities) vuln_headers.length
        devices 2 i d hd hempty c h1 ?_
      have h3 : vuln_headers.length = 11 := rfl
      omega
    · rw [hempty]
      rfl
    · have ha : partialSizes (fun d => d.vulnerabilities) devices (i + 1) =
          partialSizes (fun d => d.vulnerabilities) devices i +
            blockSize d.vulnerabilities :=
        partialSizes_add_block _ devices i d hd
      have hb : blockSize d.vulnerabilities = 1 := by rw [hempty]; rfl
      omega
    · exact empty_block_unmerged (fun d => d.vulnerabilities) devices i d hd hempty

/-- C2 witness: `c2_empty_block` at the concrete list's second device, whose
software and vulnerability lists are both empty. -/
theorem c2_empty_block_witness :
    (wDevices[1]? = some wDevice2) ∧
    ((wDevice2.software = [] →
      ((softwareSheet wDevices).cell (swStart wDevices 1) 1 =
         CellValue.str wDevice2.name ∧
       (∀ c, 2 ≤ c → (softwareSheet wDevices).cell (swStart wDevices 1) c =
         CellValue.none) ∧
       (∀ c, 1 ≤ c → c ≤ 4 →
         (swStart wDevices 1, c) ∈ (softwareSheet wDevices).borders) ∧
       blockSize wDevice2.software = 1 ∧
       swStart wDevices (1 + 1) = swStart wDevices 1 + 1 ∧
       (∀ m ∈ (softwareSheet wDevices).merges,
         ¬(m.1 ≤ swStart wDevices 1 ∧ swStart wDevices 1 ≤ m.2.2.1)))) ∧
     (wDevice2.vulnerabilities = [] →
      ((vulnSheet wDevices).cell (vuStart wDevices 1) 1 =
         CellValue.str wDevice2.name ∧
       (∀ c, 2 ≤ c → (vulnSheet wDevices).cell (vuStart wDevices 1) c =
         CellValue.none) ∧
       (∀ c, 1 ≤ c → c ≤ 11 →
         (vuStart wDevices 1, c) ∈ (vulnSheet wDevices).borders) ∧
       blockSize wDevice2.vulnerabilities = 1 ∧
       vuStart wDevices (1 + 1) = vuStart wDevices 1 + 1 ∧
       (∀ m ∈ (vulnSheet wDevices).merges,
         ¬(m.1 ≤ vuStart wDevices 1 ∧ vuStart wDevices 1 ≤ m.2.2.1))))) :=
  ⟨rfl, c2_empty_block wDevices 1 wDevice2 rfl⟩

/-- C8 counterexample: the claim says the first header column of the Software
and Vulnerability sheets carries the label "Device" and that the Software
sheet's item columns are "Name", "Version", "Vendor".  In the source file the
first header is the two-character string "��" (two literal U+FFFD
replacement characters), and the Software item headers are "Software Name"
followed by two further runs of replacement characters — none equals the
claimed labels. -/
theorem c8_counterexample :
    (softwareSheet []).cell 1 1 ≠ CellValue.str "Device" ∧
    (softwareSheet []).cell 1 2 ≠ CellValue.str "Name" ∧
    (softwareSheet []).cell 1 3 ≠ CellValue.str "Version" ∧
    (softwareSheet []).cell 1 4 ≠ CellValue.str "Vendor" ∧
    (vulnSheet []).cell 1 1 ≠ CellValue.str "Device" := by
  decide

/-- C8 amended: the header row's first column of both grouped sheets carries
the corrupted two-character label "��" (not "Device"), and the
Software sheet's subsequent header columns are "Software Name" and two
six-character runs of replacement characters (not "Name", "Version",
"Vendor"); the Vulnerability sheet's remaining headers are the English
labels below. -/
theorem c8_amended_headers (devices : List Device) :
    (softwareSheet devices).cell 1 1 = CellValue.str "��" ∧
    (softwareSheet devices).cell 1 2 = CellValue.str "Software Name" ∧
    (softwareSheet devices).cell 1 3 =
      CellValue.str "������" ∧
    (softwareSheet devices).cell 1 4 =
      CellValue.str "������" ∧
    (vulnSheet devices).cell 1 1 = CellValue.str "��" ∧
    (vulnSheet devices).cell 1 2 = CellValue.str "Kaspersky ID" ∧
    (vulnSheet devices).cell 1 3 = CellValue.str "Product Name" ∧
    (vulnSheet devices).cell 1 4 = CellValue.str "Severity" ∧
    (vulnSheet devices).cell 1 5 = CellValue.str "Severity Level" ∧
    (vulnSheet devices).cell 1 6 = CellValue.str "CVE IDs" ∧
    (vulnSheet devices).cell 1 7 = CellValue.str "Exploit Exists" ∧
    (vulnSheet devices).cell 1 8 = CellValue.str "Malware Exists" ∧
    (vulnSheet devices).cell 1 9 = CellValue.str "Recommended Major Patch" ∧
    (vulnSheet devices).cell 1 10 = CellValue.str "Recommended Minor Patch" ∧
    (vulnSheet devices).cell 1 11 = CellValue.str "Description URL" := by
  unfold softwareSheet vulnSheet
  refine ⟨?_, ?_, ?_, ?_, ?_, ?_, ?_, ?_, ?_, ?_, ?_, ?_, ?_, ?_, ?_⟩
  · rw [groupedSheet_cell_header _ _ _ devices 1 (by omega) (by decide)]
    decide
  · rw [groupedSheet_cell_header _ _ _ devices 2 (by omega) (by decide)]
    decide
  · rw [groupedSheet_cell_header _ _ _ devices 3 (by omega) (by decide)]
    decide
  · rw [groupedSheet_cell_header _ _ _ devices 4 (by omega) (by decide)]
    decide
  · rw [groupedSheet_cell_header _ _ _ devices 1 (by omega) (by decide)]
    decide
  · rw [groupedSheet_cell_header _ _ _ devices 2 (by omega) (by decide)]
    decide
  · rw [groupedSheet_cell_header _ _ _ devices 3 (by omega) (by decide)]
    decide
  · rw [groupedSheet_cell_header _ _ _ devices 4 (by omega) (by decide)]
    decide
  · rw [groupedSheet_cell_header _ _ _ devices 5 (by omega) (by decide)]
    decide
  · rw [groupedSheet_cell_header _ _ _ devices 6 (by omega) (by decide)]
    decide
  · rw [groupedSheet_cell_header _ _ _ devices 7 (by omega) (by decide)]
    decide
  · rw [groupedSheet_cell_header _ _ _ devices 8 (by omega) (by decide)]
    decide
  · rw [groupedSheet_cell_header _ _ _ devices 9 (by omega) (by decide)]
    decide
  · rw [groupedSheet_cell_header _ _ _ devices 10 (by omega) (by decide)]
    decide
  · rw [groupedSheet_cell_header _ _ _ devices 11 (by omega) (by decide)]
    decide

/-- C5: after all rows are written, for every sheet produced by the program
and every column of its used range, the assigned display width equals
`min((maxLength + 2) * 1.2, 100)` where `maxLength` is the maximum character
length over the column's non-empty cell values, header included; in
particular no column's width exceeds 100. -/
theorem c5_column_widths (devices : List Device) (ws : Sheet)
    (hws : ws = deviceSheet devices ∨ ws = softwareSheet devices ∨ ws = vulnSheet devices)
    (c : Nat) (h1 : 1 ≤ c) (h2 : c ≤ ws.ncols) :
    ws.colWidth c = min ((specMaxLength (ws.columnCells c) + 2) * (1.2 : ℚ)) 100 ∧
      ws.colWidth c ≤ 100 := by
  rcases hws with h | h | h
  · subst h
    exact sheet_colWidth_spec _ c (deviceSheet_writes_no_bool devices)
      (device_header_cell_truthy devices c h1 h2)
  · subst h
    refine sheet_colWidth_spec _ c ?_ ?_
    · exact groupedSheet_writes_no_bool software_headers _ softwareRowVals devices
        softwareRowVals_no_bool
    · exact grouped_header_cell_truthy software_headers _ softwareRowVals devices c h1 h2
        (by decide)
  · subst h
    refine sheet_colWidth_spec _ c ?_ ?_
    · exact groupedSheet_writes_no_bool vuln_headers _ vulnRowVals devices
        vulnRowVals_no_bool
    · exact grouped_header_cell_truthy vuln_headers _ vulnRowVals devices c h1 h2
        (by decide)

/-- C5 witness: `c5_column_widths` at the Device sheet of the concrete list,
column 1. -/
theorem c5_column_widths_witness :
    (1 ≤ (1 : Nat) ∧ 1 ≤ (deviceSheet wDevices).ncols) ∧
    ((deviceSheet wDevices).colWidth 1 =
       min ((specMaxLength ((deviceSheet wDevices).columnCells 1) + 2) * (1.2 : ℚ)) 100 ∧
     (deviceSheet wDevices).colWidth 1 ≤ 100) :=
  ⟨⟨by omega, by decide⟩,
   c5_column_widths wDevices (deviceSheet wDevices) (Or.inl rfl) 1 (by omega) (by decide)⟩

/-- C9: for every sheet produced by the program and every row, if some cell
value in the row contains an embedded newline, the row's height is set to
`15 * n` where `n` is the largest newline-separated line count over the row's
cells; a row none of whose cell values contains a newline keeps the default
height (its height is not set). -/
theorem c9_row_heights (devices : List Device) (ws : Sheet)
    (_hws : ws = deviceSheet devices ∨ ws = softwareSheet devices ∨ ws = vulnSheet devices)
    (r : Nat) :
    ((∃ v ∈ ws.rowCells r, v ≠ CellValue.none ∧ hasNewline (strOf v) = true) →
      ws.rowHeight r = Option.some (15 * (specMaxLines (ws.rowCells r) : ℚ))) ∧
    ((∀ v ∈ ws.rowCells r, hasNewline (strOf v) = false) →
      ws.rowHeight r = Option.none) :=
  ⟨fun h => sheet_rowHeight_some ws r h, fun h => sheet_rowHeight_none ws r h⟩

/-- C9 witness: `c9_row_heights` at the Device sheet of the concrete list,
row 3 (the data row of the device whose name embeds a newline). -/
theorem c9_row_heights_witness :
    (((∃ v ∈ (deviceSheet wDevices).rowCells 3, v ≠ CellValue.none ∧
         hasNewline (strOf v) = true) →
       (deviceSheet wDevices).rowHeight 3 =
         Option.some (15 * (specMaxLines ((deviceSheet wDevices).rowCells 3) : ℚ))) ∧
     ((∀ v ∈ (deviceSheet wDevices).rowCells 3, hasNewline (strOf v) = false) →
       (deviceSheet wDevices).rowHeight 3 = Option.none)) ∧
    (deviceSheet wDevices).rowHeight 3 = Option.some 30 :=
  ⟨c9_row_heights wDevices (deviceSheet wDevices) (Or.inl rfl) 3, by
    have h1 : maxLinesFold ((deviceSheet wDevices).rowCells 3) = 2 := by decide
    rw [Sheet.rowHeight, h1, if_pos (by omega)]
    norm_num⟩

/-- C10: in the column-width computation a cell value contributes only when
it is truthy — the integer 0, the empty string and False are skipped — and a
column all of whose cells are skipped gets `max_length = 0`, so its width is
explicitly assigned the value `(0 + 2) * 1.2 = 2.4` (= 12/5) rather than left
at the default width. -/
theorem c10_width_truthy_skip (cells : List CellValue)
    (h : ∀ v ∈ cells, truthy v = false) :
    truthy (CellValue.int 0) = false ∧ truthy (CellValue.str "") = false ∧
    truthy (CellValue.bool false) = false ∧
    maxLengthFold cells = 0 ∧
    adjustedWidth cells = 12 / 5 := by
  have hm : maxLengthFold cells = 0 := by
    rw [maxLengthFold, guardedMaxFold_eq_foldl_max]
    have hf : cells.filter truthy = [] := by
      rw [List.filter_eq_nil_iff]
      intro a ha
      rw [h a ha]
      simp
    rw [hf]
    rfl
  refine ⟨rfl, rfl, rfl, hm, ?_⟩
  rw [adjustedWidth, hm]
  rw [min_eq_left (by norm_num)]
  norm_num

/-- C10 witness: `c10_width_truthy_skip` on a column holding only the falsy
values 0, "", False and an unset cell. -/
theorem c10_width_truthy_skip_witness :
    (∀ v ∈ [CellValue.int 0, CellValue.str "", CellValue.bool false, CellValue.none],
      truthy v = false) ∧
    (truthy (CellValue.int 0) = false ∧ truthy (CellValue.str "") = false ∧
     truthy (CellValue.bool false) = false ∧
     maxLengthFold [CellValue.int 0, CellValue.str "", CellValue.bool false,
       CellValue.none] = 0 ∧
     adjustedWidth [CellValue.int 0, CellValue.str "", CellValue.bool false,
       CellValue.none] = 12 / 5) :=
  ⟨by decide, c10_width_truthy_skip _ (by decide)⟩

/-- C6 counterexample: the claim says a missing-key failure identifies both
the missing field name and the record type being built.  In the code the
failure is a bare `KeyError` carrying only the key: constructing an `OS` and
constructing a `Device`, each from a mapping lacking `name`, produce the
identical error value `"name"`, so the error cannot identify the record type
being built. -/
theorem c6_counterexample :
    errKey (OS.from_dict wBadOSDict) = Option.some "name" ∧
    errKey (Device.from_dict wBadDevDict) = Option.some "name" ∧
    errKey (OS.from_dict wBadOSDict) = errKey (Device.from_dict wBadDevDict) :=
  ⟨rfl, rfl, rfl⟩

/-- C6 amended: constructing any record (Device, OS, Software, Vulnerability)
from a mapping succeeds iff every declared field's key is present (and the
nested constructions succeed); a mapping that lacks a declared key fails with
a key-lookup ("missing field") error naming the missing key — but not the
record type; for a device mapping missing `name` the error is exactly
`"name"`, and the construction failure occurs before any output file is
written. -/
theorem c6_missing_field_amended :
    (∀ od : OSDict, (OS.from_dict od).isOk = true ↔
       od.name.isSome ∧ od.version.isSome) ∧
    (∀ sd : SoftwareDict, (Software.from_dict sd).isOk = true ↔
       sd.name.isSome ∧ sd.version.isSome ∧ sd.vendor.isSome) ∧
    (∀ vd : VulnDict, (Vulnerability.from_dict vd).isOk = true ↔
       vd.kasperskyID.isSome ∧ vd.productName.isSome ∧ vd.descriptionURL.isSome ∧
       vd.recommendedMajorPatch.isSome ∧ vd.recommendedMinorPatch.isSome ∧
       vd.severityStr.isSome ∧ vd.severity.isSome ∧ vd.cve.isSome ∧
       vd.exploitExists.isSome ∧ vd.malwareExists.isSome) ∧
    (∀ dd : DeviceDict, (Device.from_dict dd).isOk = true ↔
       dd.name.isSome ∧ dd.fqdn.isSome ∧ dd.ipAddresses.isSome ∧
       dd.macAddresses.isSome ∧ dd.owner.isSome ∧
       (∃ od, dd.os = Option.some od ∧ (OS.from_dict od).isOk = true) ∧
       (∃ sds, dd.software = Option.some sds ∧
         ∀ sd ∈ sds, (Software.from_dict sd).isOk = true) ∧
       (∃ vds, dd.vulnerabilities = Option.some vds ∧
         ∀ vd ∈ vds, (Vulnerability.from_dict vd).isOk = true)) ∧
    (∀ dd : DeviceDict, dd.name = Option.none →
       Device.from_dict dd = Except.error "name") ∧
    (∀ (data : List DeviceDict) (dd : DeviceDict), dd ∈ data →
       dd.name = Option.none → (mainRun (ReadResult.ok data)).wroteOutput = false) :=
  ⟨OS_from_dict_isOk, Software_from_dict_isOk, Vulnerability_from_dict_isOk,
   Device_from_dict_isOk, device_from_dict_missing_name,
   fun data dd hdd hname => mainRun_not_saved_of_missing_name data dd hdd hname⟩

/-- C6 witness: the amended theorem applied to a concrete device mapping
lacking `name`. -/
theorem c6_missing_field_amended_witness :
    (wBadDevDict.name = Option.none) ∧
    Device.from_dict wBadDevDict = Except.error "name" ∧
    (mainRun (ReadResult.ok [wBadDevDict])).wroteOutput = false :=
  ⟨rfl, c6_missing_field_amended.2.2.2.2.1 wBadDevDict rfl,
   c6_missing_field_amended.2.2.2.2.2 [wBadDevDict] wBadDevDict
     (List.mem_singleton.mpr rfl) rfl⟩

/-- C7: the run action catches exactly the two file-level error kinds — input
file absent, and input file not valid JSON — at the outermost boundary,
converting each into the user-facing message below with no output file
produced; a missing-key (schema violation) failure in `Device.from_dict` is
caught nowhere: it escapes as the uncaught `KeyError`, aborting the run with
the interpreter's default diagnostic; when construction succeeds the workbook
is saved. -/
theorem c7_error_boundary :
    mainRun ReadResult.missing =
      RunOutcome.printedError "Error: File 'response.json' not found." ∧
    mainRun ReadResult.badJson =
      RunOutcome.printedError "Error: Invalid JSON format in 'response.json'." ∧
    (∀ msg, (RunOutcome.printedError msg).wroteOutput = false) ∧
    (∀ (data : List DeviceDict) (k : String),
      data.mapM Device.from_dict = Except.error k →
      mainRun (ReadResult.ok data) = RunOutcome.uncaught k ∧
      (RunOutcome.uncaught k).wroteOutput = false) ∧
    (∀ (data : List DeviceDict) (devs : List Device),
      data.mapM Device.from_dict = Except.ok devs →
      mainRun (ReadResult.ok data) = RunOutcome.saved devs) :=
  ⟨rfl, rfl, fun _ => rfl,
   fun data k h => ⟨mainRun_uncaught data k h, rfl⟩,
   fun data devs h => mainRun_saved data devs h⟩

/-- C7 witness: the boundary theorem applied to a concrete failing list and a
concrete succeeding list. -/
theorem c7_error_boundary_witness :
    ([wBadDevDict].mapM Device.from_dict = (Except.error "name" : Except String (List Device))) ∧
    (mainRun (ReadResult.ok [wBadDevDict]) = RunOutcome.uncaught "name" ∧
     (RunOutcome.uncaught "name").wroteOutput = false) ∧
    ([wGoodDevDict].mapM Device.from_dict =
      Except.ok [⟨"host1", [], ["10.0.0.1"], [], "alice", ⟨"Linux", "5.10"⟩, [], []⟩]) ∧
    mainRun (ReadResult.ok [wGoodDevDict]) =
      RunOutcome.saved [⟨"host1", [], ["10.0.0.1"], [], "alice", ⟨"Linux", "5.10"⟩, [], []⟩] :=
  ⟨rfl,
   c7_error_boundary.2.2.2.1 [wBadDevDict] "name" rfl,
   rfl,
   c7_error_boundary.2.2.2.2 [wGoodDevDict] _ rfl⟩
